import Mathlib

/-!
# go-env-config: binding a struct to a configuration source

A shallow embedding of `config.go` (package `config`) together with the parts of
the Go standard library it calls (`strconv.Atoi`, `strings.ToUpper`, `os.Getenv`,
and the fragment of `reflect` used by `ParseFromLocation`).

Go strings are byte sequences, modelled as lists of `UInt8`.  Go's `int` is a
signed machine integer of `strconv.IntSize` bits (32 or 64, depending on the
platform); integer values are mathematical integers and every conversion or
arithmetic step that can wrap is written out with an explicit modulus.
-/

namespace GoEnvConfig

/-! ## Strings and machine integers -/

/-- A Go `string`: an immutable sequence of bytes. -/
abbrev GoString := List UInt8

/-- The bytes of a text literal (its UTF-8 encoding). -/
def GoString.ofString (s : String) : GoString := s.toList.flatMap String.utf8EncodeChar

/-- The platform's `int` size, `strconv.IntSize`: 32 or 64 bits. -/
inductive IntSize where
  | w32
  | w64
  deriving DecidableEq, Repr

/-- Number of bits of `int`. -/
def IntSize.bits : IntSize → Nat
  | .w32 => 32
  | .w64 => 64

/-- Conversion to an unsigned 64-bit integer (`uint64(x)`, and the result of
unsigned 64-bit arithmetic): reduction modulo `2^64`. -/
def toUint64 (x : Nat) : Nat := x % 2 ^ 64

/-- Conversion to a signed integer of `bits` bits (two's complement wrap-around). -/
def toSigned (bits : Nat) (x : Int) : Int :=
  (x + 2 ^ (bits - 1)) % 2 ^ bits - 2 ^ (bits - 1)

/-- Conversion `int64(x)`. -/
def toInt64 (x : Int) : Int := toSigned 64 x

/-- Conversion `int(x)` on a platform with the given `int` size. -/
def toInt (w : IntSize) (x : Int) : Int := toSigned w.bits x

/-- Smallest value of `int`. -/
def minInt (w : IntSize) : Int := -(2 ^ (w.bits - 1))

/-- Largest value of `int`. -/
def maxInt (w : IntSize) : Int := 2 ^ (w.bits - 1) - 1

/-! ## `strconv`: `Atoi`, `ParseInt`, `ParseUint` (base 10, bit size 0) -/

/-- The two causes carried by a `*strconv.NumError`: `strconv.ErrSyntax` and
`strconv.ErrRange`. -/
inductive NumErrKind where
  | ErrSyntax
  | ErrRange
  deriving DecidableEq, Repr

/-- A `*strconv.NumError`: the failing function, the input, and the cause. -/
structure NumError where
  Func : String
  Num : GoString
  Err : NumErrKind
  deriving DecidableEq, Repr

/-- `strconv.syntaxError(fn, str)`. -/
def syntaxError (fn : String) (str : GoString) : NumError :=
  { Func := fn, Num := str, Err := .ErrSyntax }

/-- `strconv.rangeError(fn, str)`. -/
def rangeError (fn : String) (str : GoString) : NumError :=
  { Func := fn, Num := str, Err := .ErrRange }

/-- `strconv.lower(c)`: `c | ('x' - 'X')`. -/
def lower (c : UInt8) : UInt8 := c ||| 0x20

/-- The digit selection of `ParseUint`'s loop (`base0` is false for base 10, so
the underscore case never applies): the digit value of `c`, or `none` for the
`default` arm (a syntax error). -/
def digitVal (c : UInt8) : Option Nat :=
  if 48 ≤ c.toNat ∧ c.toNat ≤ 57 then some (c.toNat - 48)
  else if 97 ≤ (lower c).toNat ∧ (lower c).toNat ≤ 122 then some ((lower c).toNat - 97 + 10)
  else none

/-- `cutoff` of `ParseUint` for base 10: `maxUint64/10 + 1`. -/
def uintCutoff : Nat := (2 ^ 64 - 1) / 10 + 1

/-- The digit loop of `strconv.ParseUint(s, 10, bitSize)`; `s0` is the whole
input (for error values), `maxVal` is `1<<bitSize - 1`, `n` the accumulator. -/
def ParseUint.loop (s0 : GoString) (maxVal : Nat) : GoString → Nat → Nat × Option NumError
  | [], n => (n, none)
  | c :: rest, n =>
    match digitVal c with
    | none => (0, some (syntaxError "ParseUint" s0))
    | some d =>
      if d ≥ 10 then (0, some (syntaxError "ParseUint" s0))
      else if n ≥ uintCutoff then (maxVal, some (rangeError "ParseUint" s0))
      else
        let n10 := toUint64 (n * 10)
        let n1 := toUint64 (n10 + d)
        if n1 < n10 ∨ n1 > maxVal then (maxVal, some (rangeError "ParseUint" s0))
        else ParseUint.loop s0 maxVal rest n1

/-- `strconv.ParseUint(s, 10, 0)`: bit size 0 selects `IntSize`. -/
def ParseUint (w : IntSize) (s : GoString) : Nat × Option NumError :=
  if s = [] then (0, some (syntaxError "ParseUint" s))
  else ParseUint.loop s (2 ^ w.bits - 1) s 0

/-- The tail of `strconv.ParseInt`: range check of the magnitude `un` against
`cutoff = 1 << (bitSize-1)` and conversion to `int64`; `neg` records a leading `-`. -/
def ParseInt.signedResult (w : IntSize) (s0 : GoString) (neg : Bool) (un : Nat) :
    Int × Option NumError :=
  let cutoff : Nat := 2 ^ (w.bits - 1)
  if neg = false ∧ un ≥ cutoff then
    (toInt64 ((cutoff : Int) - 1), some (rangeError "ParseInt" s0))
  else if neg = true ∧ un > cutoff then
    (toInt64 (-(toInt64 cutoff)), some (rangeError "ParseInt" s0))
  else
    (if neg then toInt64 (-(toInt64 un)) else toInt64 un, none)

/-- `strconv.ParseInt(s, 10, 0)`, returning an `int64` and an error: a leading
sign is picked off, the rest goes to `ParseUint`; a syntax error is returned at
once, a range error of `ParseUint` continues into the range check. -/
def ParseInt (w : IntSize) (s : GoString) : Int × Option NumError :=
  match s with
  | [] => (0, some (syntaxError "ParseInt" s))
  | c :: rest =>
    let neg : Bool := decide (c = 45)
    let body : GoString := if c = 43 ∨ c = 45 then rest else s
    match ParseUint w body with
    | (_, some ⟨_, _, .ErrSyntax⟩) => (0, some (syntaxError "ParseInt" s))
    | (un, _) => ParseInt.signedResult w s neg un

/-- The digit loop of `Atoi`'s fast path: `ch -= '0'` on a byte wraps modulo 256. -/
def Atoi.fast (w : IntSize) (s0 : GoString) : GoString → Int → Int × Option NumError
  | [], n => (n, none)
  | c :: rest, n =>
    let ch := (c.toNat + 256 - 48) % 256
    if ch > 9 then (0, some (syntaxError "Atoi" s0))
    else Atoi.fast w s0 rest (toInt w (n * 10 + ch))

/-- `strconv.Atoi(s)`: the value as an `int` and the error (`nil` is `none`).
Short inputs take the fast path, all others go through `ParseInt(s, 10, 0)`,
whose error is relabelled with `Func = "Atoi"`. -/
def Atoi (w : IntSize) (s : GoString) : Int × Option NumError :=
  let sLen := s.length
  if (w = .w32 ∧ 0 < sLen ∧ sLen < 10) ∨ (w = .w64 ∧ 0 < sLen ∧ sLen < 19) then
    match s with
    | [] => (0, some (syntaxError "Atoi" s))
    | c :: rest =>
      if c = 45 ∨ c = 43 then
        if rest.length < 1 then (0, some (syntaxError "Atoi" s))
        else
          match Atoi.fast w s rest 0 with
          | (n, some e) => (n, some e)
          | (n, none) => (if c = 45 then toInt w (-n) else n, none)
      else
        match Atoi.fast w s s 0 with
        | (n, some e) => (n, some e)
        | (n, none) => (if c = 45 then toInt w (-n) else n, none)
  else
    match ParseInt w s with
    | (i64, some e) => (toInt w i64, some { e with Func := "Atoi" })
    | (i64, none) => (toInt w i64, none)

/-! ## `strings.ToUpper` and `os.Getenv` -/

/-- Upper-casing of one ASCII byte: `'a'..'z'` lose `'a' - 'A'`, other bytes stay. -/
def upperByte (c : UInt8) : UInt8 :=
  if 97 ≤ c.toNat ∧ c.toNat ≤ 122 then UInt8.ofNat (c.toNat - 32) else c

/-- The string has no byte `>= utf8.RuneSelf` (0x80). -/
def isASCII (s : GoString) : Bool := s.all (fun c => c.toNat < 128)

/-- The string has a byte in `'a'..'z'`. -/
def hasLower (s : GoString) : Bool := s.any (fun c => 97 ≤ c.toNat ∧ c.toNat ≤ 122)

/-- `strings.ToUpper(s)`.  A string of ASCII bytes only is upper-cased bytewise
(and returned as is when it has no lower-case letter).  A string with a byte
`>= utf8.RuneSelf` is handed to `strings.Map(unicode.ToUpper, s)`, which is
driven by the Unicode case tables of the Go distribution; that function is the
parameter `mapUpper`. -/
def ToUpper (mapUpper : GoString → GoString) (s : GoString) : GoString :=
  if isASCII s then
    if !hasLower s then s else s.map upperByte
  else mapUpper s

/-- The process environment: the value of each variable that is set. -/
abbrev Env := GoString → Option GoString

/-- `os.Getenv(key)`: the value of the variable, empty if it is not present. -/
def Getenv (env : Env) (key : GoString) : GoString :=
  match env key with
  | some v => v
  | none => []

/-! ## The fragment of `reflect` used by the binder -/

/-- `reflect.Kind`. -/
inductive Kind where
  | Invalid | Bool | Int | Int8 | Int16 | Int32 | Int64
  | Uint | Uint8 | Uint16 | Uint32 | Uint64 | Uintptr
  | Float32 | Float64 | Complex64 | Complex128
  | Array | Chan | Func | Interface | Map | Ptr | Slice | String | Struct | UnsafePointer
  deriving DecidableEq, Repr

/-- The kinds whose values the binder never looks into: every kind except
`Invalid` (no value has it), `Int`, `String`, `Struct` and `Ptr`. -/
inductive OtherKind where
  | Bool | Int8 | Int16 | Int32 | Int64
  | Uint | Uint8 | Uint16 | Uint32 | Uint64 | Uintptr
  | Float32 | Float64 | Complex64 | Complex128
  | Array | Chan | Func | Interface | Map | Slice | UnsafePointer
  deriving DecidableEq, Repr

/-- The `reflect.Kind` named by an `OtherKind`. -/
def OtherKind.toKind : OtherKind → Kind
  | .Bool => .Bool | .Int8 => .Int8 | .Int16 => .Int16 | .Int32 => .Int32 | .Int64 => .Int64
  | .Uint => .Uint | .Uint8 => .Uint8 | .Uint16 => .Uint16 | .Uint32 => .Uint32
  | .Uint64 => .Uint64 | .Uintptr => .Uintptr
  | .Float32 => .Float32 | .Float64 => .Float64
  | .Complex64 => .Complex64 | .Complex128 => .Complex128
  | .Array => .Array | .Chan => .Chan | .Func => .Func | .Interface => .Interface
  | .Map => .Map | .Slice => .Slice | .UnsafePointer => .UnsafePointer

/-- A struct tag, as the sequence of its `key:"value"` pairs. -/
abbrev StructTag := List (GoString × GoString)

/-- `StructTag.Get(key)`: the value of the first pair with that key, and the
empty string when the tag has no such key. -/
def StructTag.Get (tag : StructTag) (key : GoString) : GoString :=
  match tag.find? (fun kv => kv.1 = key) with
  | some kv => kv.2
  | none => []

/-- `reflect.StructField`: the parts of a field descriptor the binder reads.
`PkgPath` is empty exactly for exported fields. -/
structure StructField where
  Name : GoString
  PkgPath : GoString
  Tag : StructTag
  deriving DecidableEq, Repr

/-- A Go value as `reflect` presents it.  Strings and ints carry their content,
a struct carries its fields in declaration order, a pointer is nil (with the
kind of its element type) or points to a value, and a value of any other kind
carries a representation that the binder never inspects. -/
inductive Value where
  | string (s : GoString)
  | int (n : Int)
  | struct (fields : List (StructField × Value))
  | nilPointer (elem : Kind)
  | pointer (target : Value)
  | other (k : OtherKind) (repr : Nat)

/-- `Value.Kind()` of a value that exists. -/
def Value.Kind : Value → Kind
  | .string _ => .String
  | .int _ => .Int
  | .struct _ => .Struct
  | .nilPointer _ => .Ptr
  | .pointer _ => .Ptr
  | .other k _ => k.toKind

/-- `rawField.CanSet()` for a field reached through a pointer to its struct:
the struct is addressable, so a field can be set exactly when it is exported. -/
def CanSet (field : StructField) : Bool := field.PkgPath = []

/-- `rawField.SetString(x)` on a field of kind `String`. -/
def SetString (_rawField : Value) (x : GoString) : Value := .string x

/-- `rawField.SetInt(x)` on a field of kind `Int`; `x` is `int64(configValue)`
for an `int`, and storing it converts back to `int`, which gives `configValue`. -/
def SetInt (_rawField : Value) (x : Int) : Value := .int x

/-! ## Errors, panics and configuration sources -/

/-- Go `error` values that occur in this package. -/
inductive GoError where
  /-- The sentinel `errors.New("Invalid config variable")`. -/
  | ErrInvalidConfigVariable
  /-- A `*reflect.ValueError`: a `reflect.Value` method used on the wrong kind. -/
  | ValueError (method : String) (kind : Kind)
  /-- A `*strconv.NumError`. -/
  | NumError (e : NumError)
  /-- Any other error value. -/
  | other (repr : Nat)
  deriving DecidableEq, Repr

/-- The package variable `ErrInvalidConfigVariable`. -/
abbrev ErrInvalidConfigVariable : GoError := GoError.ErrInvalidConfigVariable

/-- The value carried by a panic, as `recover()` returns it, classified the way
the deferred function of `ParseFromLocation` inspects it.  (Since Go 1.21 a
`panic(nil)` carries a `*runtime.PanicNilError`, which is a `runtime.Error`.) -/
inductive PanicValue where
  /-- A value implementing `runtime.Error`. -/
  | runtimeError (description : String)
  /-- An `error` that is not a `runtime.Error`. -/
  | error (e : GoError)
  /-- A value that is not an `error` at all. -/
  | nonError (repr : Nat)
  deriving DecidableEq, Repr

/-- One call made to the configuration source. -/
inductive Query where
  | GetString (key : GoString)
  | GetInt (key : GoString)
  deriving DecidableEq, Repr

/-- One line written to the package logger. -/
inductive LogLine where
  | skipping (name : GoString)
  | settingString (name : GoString) (value : GoString)
  | settingInt (name : GoString) (value : Int)
  | notSupported (name : GoString) (kind : Kind)
  deriving DecidableEq, Repr

/-- An implementation of the interface `ConfigLocation`, over its own state `σ`.
Each method either returns or panics, and leaves the implementation in a new
state. -/
structure ConfigLocation (σ : Type) where
  GetString : σ → GoString → Except PanicValue GoString × σ
  GetInt : σ → GoString → Except PanicValue (Int × Option GoError) × σ

/-- A source whose two methods always return normally. -/
def ConfigLocation.returning {σ : Type} (getString : σ → GoString → GoString × σ)
    (getInt : σ → GoString → (Int × Option GoError) × σ) : ConfigLocation σ where
  GetString := fun s key => (.ok (getString s key).1, (getString s key).2)
  GetInt := fun s key => (.ok (getInt s key).1, (getInt s key).2)

/-! ## `EnvConfig` -/

/-- `(*EnvConfig).value(key)`: the key is upper-cased, then looked up in the
environment. -/
def EnvConfig.value (mapUpper : GoString → GoString) (env : Env) (key : GoString) : GoString :=
  Getenv env (ToUpper mapUpper key)

/-- `(*EnvConfig).GetString(key)`. -/
def EnvConfig.GetString (mapUpper : GoString → GoString) (env : Env) (key : GoString) :
    GoString :=
  EnvConfig.value mapUpper env key

/-- `(*EnvConfig).GetInt(key)`: `strconv.Atoi` of the raw value. -/
def EnvConfig.GetInt (mapUpper : GoString → GoString) (w : IntSize) (env : Env)
    (key : GoString) : Int × Option NumError :=
  Atoi w (EnvConfig.value mapUpper env key)

/-- `&EnvConfig{}` as a `ConfigLocation`: it has no state of its own and reads
the process environment `env`. -/
def EnvConfig (mapUpper : GoString → GoString) (w : IntSize) (env : Env) : ConfigLocation Unit :=
  ConfigLocation.returning
    (fun _ key => (EnvConfig.GetString mapUpper env key, ()))
    (fun _ key =>
      (((EnvConfig.GetInt mapUpper w env key).1,
        (EnvConfig.GetInt mapUpper w env key).2.map GoError.NumError), ()))

/-! ## `ParseFromLocation` and `Parse` -/

/-- The effect of one iteration of the loop over the fields: the content of the
field afterwards, the panic that interrupted the iteration (if any), the state
of the source, and the source calls and log lines of the iteration. -/
structure Step (σ : Type) where
  value : Value
  panic : Option PanicValue
  source : σ
  queries : List Query
  logs : List LogLine

/-- The body of the loop of `ParseFromLocation` for one field: `field` is
`typeElem.Field(i)`, `rawField` is `valueElem.Field(i)`. -/
def bindField {σ : Type} (w : IntSize) (location : ConfigLocation σ) (field : StructField)
    (rawField : Value) (st : σ) : Step σ :=
  if !CanSet field then
    { value := rawField, panic := none, source := st, queries := [],
      logs := [.skipping field.Name] }
  else
    let defaultValue := field.Tag.Get (GoString.ofString "default")
    match rawField.Kind with
    | .String =>
      match location.GetString st field.Name with
      | (.error p, st1) =>
        { value := rawField, panic := some p, source := st1,
          queries := [.GetString field.Name], logs := [] }
      | (.ok v, st1) =>
        let configValue := if v = [] then defaultValue else v
        { value := SetString rawField configValue, panic := none, source := st1,
          queries := [.GetString field.Name],
          logs := [.settingString field.Name configValue] }
    | .Int =>
      match location.GetInt st field.Name with
      | (.error p, st1) =>
        { value := rawField, panic := some p, source := st1,
          queries := [.GetInt field.Name], logs := [] }
      | (.ok (v, err), st1) =>
        let configValue := if err ≠ none then (Atoi w defaultValue).1 else v
        { value := SetInt rawField configValue, panic := none, source := st1,
          queries := [.GetInt field.Name],
          logs := [.settingInt field.Name configValue] }
    | _ =>
      { value := rawField, panic := none, source := st, queries := [],
        logs := [.notSupported field.Name rawField.Kind] }

/-- What the loop over the fields leaves behind: the fields of the struct, the
panic that interrupted the loop (if any), the state of the source, and all
source calls and log lines in order. -/
structure Bound (σ : Type) where
  fields : List (StructField × Value)
  panic : Option PanicValue
  source : σ
  queries : List Query
  logs : List LogLine

/-- The loop `for i := 0; i < typeElem.NumField(); i++` over the fields in
declaration order; a panic in an iteration ends the loop. -/
def bindFields {σ : Type} (w : IntSize) (location : ConfigLocation σ) :
    List (StructField × Value) → σ → Bound σ
  | [], st => { fields := [], panic := none, source := st, queries := [], logs := [] }
  | (field, rawField) :: rest, st =>
    let s := bindField w location field rawField st
    match s.panic with
    | some p =>
      { fields := (field, s.value) :: rest, panic := some p, source := s.source,
        queries := s.queries, logs := s.logs }
    | none =>
      let r := bindFields w location rest s.source
      { fields := (field, s.value) :: r.fields, panic := r.panic, source := r.source,
        queries := s.queries ++ r.queries, logs := s.logs ++ r.logs }

/-- How a call ends: it returns an `error` (`none` is `nil`), or it panics. -/
inductive Outcome where
  | returned (err : Option GoError)
  | panicked (p : PanicValue)
  deriving DecidableEq, Repr

/-- A finished call of `ParseFromLocation`: how it ended, what `config` holds
afterwards, the state of the source, and the source calls and log lines made. -/
structure Run (σ : Type) where
  outcome : Outcome
  config : Option Value
  source : σ
  queries : List Query
  logs : List LogLine

/-- Lines 49 to 53: `reflect.ValueOf(config).Elem()` and
`reflect.TypeOf(config).Elem()`.  For a non-nil pointer they give the value
pointed to and the kind of its type; for a nil pointer the zero `Value` (here
`none`) and the kind of the element type.  For anything else, the nil interface
included, the first `Elem` panics with a `*reflect.ValueError` and the second
is not reached (`reflect.ValueOf` never yields a value of kind `Interface`). -/
def elems (config : Option Value) : Except PanicValue (Option Value × Kind) :=
  match config with
  | some (.pointer target) => .ok (some target, target.Kind)
  | some (.nilPointer elem) => .ok (none, elem)
  | some v => .error (.error (.ValueError "reflect.Value.Elem" v.Kind))
  | none => .error (.error (.ValueError "reflect.Value.Elem" .Invalid))

/-- The body of `ParseFromLocation`, before the deferred function runs. -/
def ParseFromLocation.body {σ : Type} (w : IntSize) (config : Option Value)
    (location : ConfigLocation σ) (st : σ) : Run σ :=
  match elems config with
  | .error p =>
    { outcome := .panicked p, config := config, source := st, queries := [], logs := [] }
  | .ok (valueElem, typeElemKind) =>
    match valueElem with
    | some (.struct fields) =>
      if typeElemKind ≠ .Struct then
        { outcome := .returned (some ErrInvalidConfigVariable), config := config, source := st,
          queries := [], logs := [] }
      else
        let r := bindFields w location fields st
        { outcome := (match r.panic with
            | some p => .panicked p
            | none => .returned none),
          config := some (.pointer (.struct r.fields)), source := r.source,
          queries := r.queries, logs := r.logs }
    | _ =>
      { outcome := .returned (some ErrInvalidConfigVariable), config := config, source := st,
        queries := [], logs := [] }

/-- The deferred function of `ParseFromLocation`: a panic with a
`runtime.Error` is raised again, a panic with any other `error` becomes the
returned error, and for a value that is no `error` the type assertion
`r.(error)` fails, which is a run-time panic of its own. -/
def recovered : Outcome → Outcome
  | .returned err => .returned err
  | .panicked (.runtimeError d) => .panicked (.runtimeError d)
  | .panicked (.error e) => .returned (some e)
  | .panicked (.nonError _) =>
    .panicked (.runtimeError "interface conversion: interface is not error")

/-- `ParseFromLocation(config, location)`, with the source in state `st`. -/
def ParseFromLocation {σ : Type} (w : IntSize) (config : Option Value)
    (location : ConfigLocation σ) (st : σ) : Run σ :=
  let r := ParseFromLocation.body w config location st
  { r with outcome := recovered r.outcome }

/-- `Parse(config)`: `ParseFromLocation(config, &EnvConfig{})`. -/
def Parse (mapUpper : GoString → GoString) (w : IntSize) (env : Env) (config : Option Value) :
    Run Unit :=
  ParseFromLocation w config (EnvConfig mapUpper w env) ()

/-- The state of the source when the loop reaches the field at position `i`:
the state in which binding the first `i` fields leaves it. -/
def sourceBefore {σ : Type} (w : IntSize) (location : ConfigLocation σ)
    (fields : List (StructField × Value)) (st : σ) (i : Nat) : σ :=
  (ParseFromLocation w (some (.pointer (.struct (fields.take i)))) location st).source

/-! ## An example schema -/

/-- The tag key `default`. -/
def defaultKey : GoString := GoString.ofString "default"

/-- The field ``Host string `default:"localhost"` ``. -/
def hostField : StructField :=
  { Name := GoString.ofString "Host", PkgPath := [],
    Tag := [(defaultKey, GoString.ofString "localhost")] }

/-- The field ``Port int `default:"8080"` ``. -/
def portField : StructField :=
  { Name := GoString.ofString "Port", PkgPath := [],
    Tag := [(defaultKey, GoString.ofString "8080")] }

/-- The field `Ratio float64`. -/
def ratioField : StructField :=
  { Name := GoString.ofString "Ratio", PkgPath := [], Tag := [] }

/-- The unexported field ``secret string `default:"x"` `` of a package `main`. -/
def secretField : StructField :=
  { Name := GoString.ofString "secret", PkgPath := GoString.ofString "main",
    Tag := [(defaultKey, GoString.ofString "x")] }

/-- A struct value with the four fields above: `Host` and `Port` at their zero
values, `Ratio` holding some float, `secret` holding `"keep"`. -/
def exampleFields : List (StructField × Value) :=
  [(hostField, .string []), (portField, .int 0), (ratioField, .other .Float64 7),
   (secretField, .string (GoString.ofString "keep"))]

/-- An environment in which only `PORT=9090` is set. -/
def exampleEnv : Env :=
  fun key => if key = GoString.ofString "PORT" then some (GoString.ofString "9090") else none

/-- The empty environment. -/
def emptyEnv : Env := fun _ => none

/-- The field ``Port int `default:"9223372036854775808"` ``, whose default is
one more than the largest 64-bit `int`. -/
def bigPortField : StructField :=
  { Name := GoString.ofString "Port", PkgPath := [],
    Tag := [(defaultKey, GoString.ofString "9223372036854775808")] }

/-! ## Keys that differ only in letter case (specification side) -/

/-- Two bytes that are equal, or are the lower-case and the upper-case form of
one ASCII letter. -/
def sameLetter (a b : UInt8) : Bool :=
  a = b ∨ (97 ≤ a.toNat ∧ a.toNat ≤ 122 ∧ b.toNat + 32 = a.toNat) ∨
    (97 ≤ b.toNat ∧ b.toNat ≤ 122 ∧ a.toNat + 32 = b.toNat)

/-- Two keys of the same length that agree byte by byte up to the case of
ASCII letters. -/
def differOnlyInCase : GoString → GoString → Bool
  | [], [] => true
  | a :: s, b :: t => sameLetter a b && differOnlyInCase s t
  | _, _ => false

/-! ## Decimal literals (specification side) -/

/-- An ASCII decimal digit, `'0'` to `'9'`. -/
def isDigit (c : UInt8) : Prop := 48 ≤ c.toNat ∧ c.toNat ≤ 57

instance (c : UInt8) : Decidable (isDigit c) := by unfold isDigit; infer_instance

/-- Every byte of `ds` is a decimal digit. -/
def allDigits (ds : GoString) : Prop := ∀ c ∈ ds, isDigit c

instance (ds : GoString) : Decidable (allDigits ds) := by unfold allDigits; infer_instance

/-- Positional base-10 value of the digit string `ds` appended to the number `n`. -/
def decimalFrom : Nat → GoString → Nat
  | n, [] => n
  | n, c :: rest => decimalFrom (n * 10 + (c.toNat - 48)) rest

/-- Base-10 value of a digit string. -/
def decimalValue (ds : GoString) : Nat := decimalFrom 0 ds

/-- A base-10 integer literal: an optional sign `+` or `-` followed by one or
more decimal digits and nothing else. -/
def IsDecimalLiteral (s : GoString) : Prop :=
  match s with
  | [] => False
  | c :: rest => if c = 43 ∨ c = 45 then rest ≠ [] ∧ allDigits rest else allDigits s

instance (s : GoString) : Decidable (IsDecimalLiteral s) := by
  unfold IsDecimalLiteral; split <;> infer_instance

/-- The integer denoted by a base-10 literal. -/
def literalValue (s : GoString) : Int :=
  match s with
  | [] => 0
  | c :: rest =>
    if c = 45 then -(decimalValue rest : Int)
    else if c = 43 then (decimalValue rest : Int)
    else (decimalValue s : Int)

/-- A valid base-10 integer literal for the type `int`: well-formed, and its
value is representable in `int`. -/
def ValidIntLiteral (w : IntSize) (s : GoString) : Prop :=
  IsDecimalLiteral s ∧ minInt w ≤ literalValue s ∧ literalValue s ≤ maxInt w

instance (w : IntSize) (s : GoString) : Decidable (ValidIntLiteral w s) := by
  unfold ValidIntLiteral; infer_instance

/-- A struct value of the schema
``{Host string `default:"localhost"`; Port int `default:"8080"`}`` whose two
fields hold `host` and `port`. -/
def hostPort (host : GoString) (port : Int) : Value :=
  .struct [(hostField, .string host), (portField, .int port)]

/-- A source whose two methods always panic with the value `p`. -/
def faultySource (p : PanicValue) : ConfigLocation Unit where
  GetString := fun s _ => (.error p, s)
  GetInt := fun s _ => (.error p, s)

/-- A stateless source: the result of each method (a return or a panic) depends
on the key only, and a call leaves the state of the source as it is. -/
def ConfigLocation.stateless {σ : Type} (getString : GoString → Except PanicValue GoString)
    (getInt : GoString → Except PanicValue (Int × Option GoError)) : ConfigLocation σ where
  GetString := fun s key => (getString key, s)
  GetInt := fun s key => (getInt key, s)

/-- A stateless source whose methods return normally: the answers `getString`
and `getInt` depend on the key only. -/
def ConfigLocation.answering {σ : Type} (getString : GoString → GoString)
    (getInt : GoString → Int × Option GoError) : ConfigLocation σ :=
  ConfigLocation.stateless (fun key => .ok (getString key)) (fun key => .ok (getInt key))

/-- Two field lists that differ only in the entry values of settable fields of
kind `String` or `Int`: the same field descriptors in the same order, and at
each position either the same value, or a settable field holding two strings or
two ints. -/
def differOnlyInEntry :
    List (StructField × Value) → List (StructField × Value) → Prop
  | [], [] => True
  | (f, v) :: rest, (f', v') :: rest' =>
    f = f' ∧
    (v = v' ∨ (CanSet f = true ∧
      ((v.Kind = .String ∧ v'.Kind = .String) ∨ (v.Kind = .Int ∧ v'.Kind = .Int)))) ∧
    differOnlyInEntry rest rest'
  | _, _ => False

/-- The field `Name string`, without a tag. -/
def nameField : StructField :=
  { Name := GoString.ofString "Name", PkgPath := [], Tag := [] }

/-- A stateless source that answers `"x"` to `GetString` for every key except
`Name`, for which `GetString` panics with an ordinary error value; `GetInt`
answers `0` without error. -/
def panicsOnName : ConfigLocation Unit :=
  ConfigLocation.stateless
    (fun key =>
      if key = GoString.ofString "Name" then .error (.error (.other 1))
      else .ok (GoString.ofString "x"))
    (fun _ => .ok (0, none))

/-! ## Correctness of the `strconv` model -/

theorem decimalFrom_ge (ds : GoString) : ∀ n, n ≤ decimalFrom n ds := by
  induction ds with
  | nil => intro n; exact Nat.le_refl _
  | cons c rest ih =>
    intro n
    have := ih (n * 10 + (c.toNat - 48))
    show n ≤ decimalFrom (n * 10 + (c.toNat - 48)) rest
    omega

theorem decimalFrom_lt (ds : GoString) (h : allDigits ds) :
    ∀ n, decimalFrom n ds < (n + 1) * 10 ^ ds.length := by
  induction ds with
  | nil => intro n; show n < (n + 1) * 10 ^ 0; omega
  | cons c rest ih =>
    intro n
    have hc : isDigit c := h c (by simp)
    have hr : allDigits rest := fun d hd => h d (by simp [hd])
    have := ih hr (n * 10 + (c.toNat - 48))
    show decimalFrom (n * 10 + (c.toNat - 48)) rest < (n + 1) * 10 ^ (rest.length + 1)
    unfold isDigit at hc
    have h2 : (n * 10 + (c.toNat - 48) + 1) * 10 ^ rest.length ≤ ((n + 1) * 10) * 10 ^ rest.length :=
      Nat.mul_le_mul_right _ (by omega)
    calc decimalFrom (n * 10 + (c.toNat - 48)) rest
        < (n * 10 + (c.toNat - 48) + 1) * 10 ^ rest.length := this
      _ ≤ ((n + 1) * 10) * 10 ^ rest.length := h2
      _ = (n + 1) * 10 ^ (rest.length + 1) := by rw [pow_succ]; ring

theorem digitVal_digit (c : UInt8) (h : isDigit c) : digitVal c = some (c.toNat - 48) := by
  unfold isDigit at h
  unfold digitVal
  rw [if_pos h]

theorem digitVal_nondigit (c : UInt8) (h : ¬ isDigit c) :
    digitVal c = none ∨ ∃ d, digitVal c = some d ∧ d ≥ 10 := by
  unfold isDigit at h
  unfold digitVal
  rw [if_neg h]
  split
  · right; exact ⟨_, rfl, by omega⟩
  · left; rfl

theorem ParseUint.loop_ok (s0 : GoString) (maxVal : Nat) (hmax : maxVal < 2 ^ 64) :
    ∀ (ds : GoString) (n : Nat), allDigits ds → decimalFrom n ds ≤ maxVal →
      ParseUint.loop s0 maxVal ds n = (decimalFrom n ds, none) := by
  intro ds
  induction ds with
  | nil => intro n _ _; rfl
  | cons c rest ih =>
    intro n hd hle
    have hc : isDigit c := hd c (List.mem_cons_self _ _)
    have hr : allDigits rest := fun d hd' => hd d (List.mem_cons_of_mem _ hd')
    have hge := decimalFrom_ge rest (n * 10 + (c.toNat - 48))
    have hle' : decimalFrom (n * 10 + (c.toNat - 48)) rest ≤ maxVal := hle
    have hdv := digitVal_digit c hc
    unfold isDigit at hc
    have hd10 : ¬ (c.toNat - 48 ≥ 10) := by omega
    have hcut : ¬ (n ≥ uintCutoff) := by unfold uintCutoff; omega
    have h10 : toUint64 (n * 10) = n * 10 := by unfold toUint64; omega
    have h1 : toUint64 (n * 10 + (c.toNat - 48)) = n * 10 + (c.toNat - 48) := by
      unfold toUint64; omega
    have hov : ¬ (n * 10 + (c.toNat - 48) < n * 10 ∨ n * 10 + (c.toNat - 48) > maxVal) := by
      omega
    simp only [ParseUint.loop, hdv, if_neg hd10, if_neg hcut, h10, h1, if_neg hov]
    exact ih _ hr hle'

theorem ParseUint.loop_err (s0 : GoString) (maxVal : Nat) (hmax : maxVal < 2 ^ 64) :
    ∀ (ds : GoString) (n : Nat), ¬ (allDigits ds ∧ decimalFrom n ds ≤ maxVal) → n ≤ maxVal →
      ParseUint.loop s0 maxVal ds n = (0, some (syntaxError "ParseUint" s0)) ∨
      ParseUint.loop s0 maxVal ds n = (maxVal, some (rangeError "ParseUint" s0)) := by
  intro ds
  induction ds with
  | nil =>
    intro n h hn
    exact absurd ⟨fun _ hc => absurd hc (List.not_mem_nil _), hn⟩ h
  | cons c rest ih =>
    intro n h hn
    by_cases hc : isDigit c
    · have hdv := digitVal_digit c hc
      unfold isDigit at hc
      have hd10 : ¬ (c.toNat - 48 ≥ 10) := by omega
      by_cases hcut : n ≥ uintCutoff
      · right
        simp only [ParseUint.loop, hdv, if_neg hd10, if_pos hcut]
      · have h10 : toUint64 (n * 10) = n * 10 := by
          unfold toUint64; unfold uintCutoff at hcut; omega
        by_cases hov : n * 10 + (c.toNat - 48) ≤ maxVal
        · have h1 : toUint64 (n * 10 + (c.toNat - 48)) = n * 10 + (c.toNat - 48) := by
            unfold toUint64; omega
          have hov' : ¬ (n * 10 + (c.toNat - 48) < n * 10 ∨ n * 10 + (c.toNat - 48) > maxVal) := by
            omega
          simp only [ParseUint.loop, hdv, if_neg hd10, if_neg hcut, h10, h1, if_neg hov']
          refine ih _ ?_ hov
          intro hh
          apply h
          refine ⟨?_, hh.2⟩
          intro d hd
          rcases List.mem_cons.1 hd with rfl | hd
          · exact ⟨hc.1, hc.2⟩
          · exact hh.1 d hd
        · right
          have hov' : toUint64 (n * 10 + (c.toNat - 48)) < n * 10 ∨
              toUint64 (n * 10 + (c.toNat - 48)) > maxVal := by
            unfold toUint64; unfold uintCutoff at hcut; omega
          simp only [ParseUint.loop, hdv, if_neg hd10, if_neg hcut, h10, if_pos hov']
    · left
      rcases digitVal_nondigit c hc with hdv | ⟨d, hdv, hd⟩
      · simp only [ParseUint.loop, hdv]
      · simp only [ParseUint.loop, hdv, if_pos hd]

theorem maxVal_lt (w : IntSize) : 2 ^ w.bits - 1 < 2 ^ 64 := by
  cases w <;> simp [IntSize.bits]

theorem toInt_id (w : IntSize) (x : Int) (h1 : minInt w ≤ x) (h2 : x ≤ maxInt w) :
    toInt w x = x := by
  cases w <;> simp only [toInt, toSigned, minInt, maxInt, IntSize.bits] at * <;> omega

theorem toInt64_id (x : Int) (h1 : -(2 ^ 63) ≤ x) (h2 : x < 2 ^ 63) : toInt64 x = x := by
  simp only [toInt64, toSigned] at *
  omega

theorem ParseUint_ok (w : IntSize) (s : GoString) (hne : s ≠ []) (hd : allDigits s)
    (hle : decimalValue s ≤ 2 ^ w.bits - 1) : ParseUint w s = (decimalValue s, none) := by
  unfold ParseUint
  rw [if_neg hne]
  exact ParseUint.loop_ok s _ (maxVal_lt w) s 0 hd hle

theorem ParseUint_err (w : IntSize) (s : GoString)
    (h : ¬ (s ≠ [] ∧ allDigits s ∧ decimalValue s ≤ 2 ^ w.bits - 1)) :
    ParseUint w s = (0, some (syntaxError "ParseUint" s)) ∨
    ParseUint w s = (2 ^ w.bits - 1, some (rangeError "ParseUint" s)) := by
  unfold ParseUint
  by_cases hne : s = []
  · left; rw [if_pos hne]
  · rw [if_neg hne]
    exact ParseUint.loop_err s _ (maxVal_lt w) s 0 (fun hh => h ⟨hne, hh.1, hh.2⟩) (Nat.zero_le _)

theorem two_pow_bits (w : IntSize) : (2 : Nat) ^ (w.bits - 1) = 2147483648 ∨
    (2 : Nat) ^ (w.bits - 1) = 9223372036854775808 := by
  cases w
  · left; rfl
  · right; rfl

theorem maxInt_eq (w : IntSize) : maxInt w = ((2 ^ (w.bits - 1) : Nat) : Int) - 1 := by
  unfold maxInt; push_cast; rfl

theorem minInt_eq (w : IntSize) : minInt w = -((2 ^ (w.bits - 1) : Nat) : Int) := by
  unfold minInt; push_cast; rfl

theorem ParseInt.signedResult_pos_ok (w : IntSize) (s0 : GoString) (un : Nat)
    (h : (un : Int) ≤ maxInt w) : ParseInt.signedResult w s0 false un = ((un : Int), none) := by
  rw [maxInt_eq] at h
  have hp := two_pow_bits w
  have h64 : toInt64 (un : Int) = un := by
    apply toInt64_id <;> omega
  have hc : ¬ (un ≥ 2 ^ (w.bits - 1)) := by omega
  simp only [ParseInt.signedResult, Bool.false_eq_true, false_and, true_and, if_false, if_neg hc,
    h64]

theorem ParseInt.signedResult_pos_range (w : IntSize) (s0 : GoString) (un : Nat)
    (h : maxInt w < (un : Int)) :
    ParseInt.signedResult w s0 false un = (maxInt w, some (rangeError "ParseInt" s0)) := by
  rw [maxInt_eq] at *
  have hp := two_pow_bits w
  have h64 : toInt64 (((2 ^ (w.bits - 1) : Nat) : Int) - 1) = ((2 ^ (w.bits - 1) : Nat) : Int) - 1 := by
    apply toInt64_id <;> omega
  have hc : un ≥ 2 ^ (w.bits - 1) := by omega
  simp only [ParseInt.signedResult, Bool.false_eq_true, false_and, true_and, if_false, if_pos hc,
    h64]

theorem ParseInt.signedResult_neg_ok (w : IntSize) (s0 : GoString) (un : Nat)
    (h : minInt w ≤ -(un : Int)) : ParseInt.signedResult w s0 true un = (-(un : Int), none) := by
  rw [minInt_eq] at h
  have hp := two_pow_bits w
  have h64 : toInt64 (-(toInt64 (un : Int))) = -(un : Int) := by
    simp only [toInt64, toSigned]
    omega
  have hc : ¬ (un > 2 ^ (w.bits - 1)) := by omega
  simp only [ParseInt.signedResult, Bool.true_eq_false, false_and, true_and, if_false, if_neg hc,
    h64, if_true]

theorem ParseInt.signedResult_neg_range (w : IntSize) (s0 : GoString) (un : Nat)
    (h : -(un : Int) < minInt w) :
    ParseInt.signedResult w s0 true un = (minInt w, some (rangeError "ParseInt" s0)) := by
  rw [minInt_eq] at *
  have hp := two_pow_bits w
  have h64 : toInt64 (-(toInt64 ((2 ^ (w.bits - 1) : Nat) : Int))) =
      -((2 ^ (w.bits - 1) : Nat) : Int) := by
    simp only [toInt64, toSigned]
    omega
  have hc : un > 2 ^ (w.bits - 1) := by omega
  simp only [ParseInt.signedResult, Bool.true_eq_false, false_and, true_and, if_false, if_pos hc,
    h64]

theorem ParseInt_ok (w : IntSize) (s : GoString) (h : ValidIntLiteral w s) :
    ParseInt w s = (literalValue s, none) := by
  obtain ⟨hlit, hmin, hmax⟩ := h
  have hp := two_pow_bits w
  have hb : (2 : Nat) ^ w.bits - 1 ≥ 2 ^ (w.bits - 1) := by
    cases w <;> simp [IntSize.bits]
  match s, hlit, hmin, hmax with
  | c :: rest, hlit, hmin, hmax =>
    by_cases h45 : c = 45
    · have hs : c = 43 ∨ c = 45 := Or.inr h45
      simp only [IsDecimalLiteral, if_pos hs] at hlit
      simp only [literalValue, if_pos h45] at hmin hmax ⊢
      have hmin2 := hmin
      rw [minInt_eq] at hmin2
      have hu := ParseUint_ok w rest hlit.1 hlit.2 (by omega)
      simp only [ParseInt, if_pos hs, hu, decide_eq_true h45]
      exact ParseInt.signedResult_neg_ok w _ _ hmin
    · by_cases h43 : c = 43
      · have hs : c = 43 ∨ c = 45 := Or.inl h43
        simp only [IsDecimalLiteral, if_pos hs] at hlit
        simp only [literalValue, if_neg h45, if_pos h43] at hmin hmax ⊢
        have hmax2 := hmax
        rw [maxInt_eq] at hmax2
        have hu := ParseUint_ok w rest hlit.1 hlit.2 (by omega)
        simp only [ParseInt, if_pos hs, hu, decide_eq_false h45]
        exact ParseInt.signedResult_pos_ok w _ _ hmax
      · have hs : ¬ (c = 43 ∨ c = 45) := by
          intro hh; rcases hh with hh | hh
          · exact h43 hh
          · exact h45 hh
        simp only [IsDecimalLiteral, if_neg hs] at hlit
        simp only [literalValue, if_neg h45, if_neg h43] at hmin hmax ⊢
        have hmax2 := hmax
        rw [maxInt_eq] at hmax2
        have hu := ParseUint_ok w (c :: rest) (List.cons_ne_nil _ _) hlit (by omega)
        simp only [ParseInt, if_neg hs, hu, decide_eq_false h45]
        exact ParseInt.signedResult_pos_ok w _ _ hmax

theorem ParseInt_err (w : IntSize) (s : GoString) (h : ¬ ValidIntLiteral w s) :
    ParseInt w s = (0, some (syntaxError "ParseInt" s)) ∨
    ParseInt w s = (maxInt w, some (rangeError "ParseInt" s)) ∨
    ParseInt w s = (minInt w, some (rangeError "ParseInt" s)) := by
  have hp := two_pow_bits w
  have hb : (2 : Nat) ^ w.bits - 1 ≥ 2 ^ (w.bits - 1) + 1 := by
    cases w <;> simp [IntSize.bits]
  have hmaxe := maxInt_eq w
  have hmine := minInt_eq w
  match s, h with
  | [], _ => left; rfl
  | c :: rest, h =>
    by_cases h45 : c = 45
    · have hs : c = 43 ∨ c = 45 := Or.inr h45
      simp only [ValidIntLiteral, IsDecimalLiteral, if_pos hs, literalValue, if_pos h45] at h
      by_cases hok : rest ≠ [] ∧ allDigits rest ∧ decimalValue rest ≤ 2 ^ w.bits - 1
      · have hu := ParseUint_ok w rest hok.1 hok.2.1 hok.2.2
        right; right
        simp only [ParseInt, if_pos hs, hu, decide_eq_true h45]
        apply ParseInt.signedResult_neg_range
        by_contra hc
        exact h ⟨⟨hok.1, hok.2.1⟩, by omega, by omega⟩
      · rcases ParseUint_err w rest hok with hu | hu
        · left
          simp only [ParseInt, if_pos hs, hu, syntaxError]
        · right; right
          simp only [ParseInt, if_pos hs, hu, rangeError, decide_eq_true h45]
          apply ParseInt.signedResult_neg_range
          omega
    · by_cases h43 : c = 43
      · have hs : c = 43 ∨ c = 45 := Or.inl h43
        simp only [ValidIntLiteral, IsDecimalLiteral, if_pos hs, literalValue, if_neg h45,
          if_pos h43] at h
        by_cases hok : rest ≠ [] ∧ allDigits rest ∧ decimalValue rest ≤ 2 ^ w.bits - 1
        · have hu := ParseUint_ok w rest hok.1 hok.2.1 hok.2.2
          right; left
          simp only [ParseInt, if_pos hs, hu, decide_eq_false h45]
          apply ParseInt.signedResult_pos_range
          by_contra hc
          exact h ⟨⟨hok.1, hok.2.1⟩, by omega, by omega⟩
        · rcases ParseUint_err w rest hok with hu | hu
          · left
            simp only [ParseInt, if_pos hs, hu, syntaxError]
          · right; left
            simp only [ParseInt, if_pos hs, hu, rangeError, decide_eq_false h45]
            apply ParseInt.signedResult_pos_range
            omega
      · have hs : ¬ (c = 43 ∨ c = 45) := by
          intro hh; rcases hh with hh | hh
          · exact h43 hh
          · exact h45 hh
        simp only [ValidIntLiteral, IsDecimalLiteral, if_neg hs, literalValue, if_neg h45,
          if_neg h43] at h
        by_cases hok : (c :: rest) ≠ [] ∧ allDigits (c :: rest) ∧
            decimalValue (c :: rest) ≤ 2 ^ w.bits - 1
        · have hu := ParseUint_ok w (c :: rest) hok.1 hok.2.1 hok.2.2
          right; left
          simp only [ParseInt, if_neg hs, hu, decide_eq_false h45]
          apply ParseInt.signedResult_pos_range
          by_contra hc
          exact h ⟨hok.2.1, by omega, by omega⟩
        · rcases ParseUint_err w (c :: rest) hok with hu | hu
          · left
            simp only [ParseInt, if_neg hs, hu, syntaxError]
          · right; left
            simp only [ParseInt, if_neg hs, hu, rangeError, decide_eq_false h45]
            apply ParseInt.signedResult_pos_range
            omega

theorem byte_lt (c : UInt8) : c.toNat < 256 := UInt8.toNat_lt_size c

theorem Atoi.fast_ok (w : IntSize) (s0 : GoString) :
    ∀ (ds : GoString) (n : Nat), allDigits ds → ((decimalFrom n ds : Nat) : Int) ≤ maxInt w →
      Atoi.fast w s0 ds (n : Int) = (((decimalFrom n ds : Nat) : Int), none) := by
  intro ds
  induction ds with
  | nil => intro n _ _; rfl
  | cons c rest ih =>
    intro n hd hle
    have hc : isDigit c := hd c (List.mem_cons_self _ _)
    have hr : allDigits rest := fun d hd' => hd d (List.mem_cons_of_mem _ hd')
    have hge := decimalFrom_ge rest (n * 10 + (c.toNat - 48))
    have hle' : ((decimalFrom (n * 10 + (c.toNat - 48)) rest : Nat) : Int) ≤ maxInt w := hle
    have hlt := byte_lt c
    unfold isDigit at hc
    have hch : (c.toNat + 256 - 48) % 256 = c.toNat - 48 := by omega
    have h9 : ¬ (c.toNat - 48 > 9) := by omega
    have hp := two_pow_bits w
    have hid : toInt w ((n : Int) * 10 + ((c.toNat - 48 : Nat) : Int)) =
        ((n * 10 + (c.toNat - 48) : Nat) : Int) := by
      rw [toInt_id]
      · push_cast; rfl
      · rw [minInt_eq]; omega
      · push_cast at hle' hge ⊢; omega
    simp only [Atoi.fast, hch, if_neg h9, hid]
    exact ih _ hr hle'

theorem Atoi.fast_err (w : IntSize) (s0 : GoString) :
    ∀ (ds : GoString) (n : Int), ¬ allDigits ds →
      Atoi.fast w s0 ds n = (0, some (syntaxError "Atoi" s0)) := by
  intro ds
  induction ds with
  | nil => intro n h; exact absurd (fun _ hc => absurd hc (List.not_mem_nil _)) h
  | cons c rest ih =>
    intro n h
    have hlt := byte_lt c
    by_cases hc : isDigit c
    · have hr : ¬ allDigits rest := by
        intro hh
        apply h
        intro d hd
        rcases List.mem_cons.1 hd with rfl | hd
        · exact hc
        · exact hh d hd
      unfold isDigit at hc
      have h9 : ¬ ((c.toNat + 256 - 48) % 256 > 9) := by omega
      simp only [Atoi.fast, if_neg h9]
      exact ih _ hr
    · unfold isDigit at hc
      have h9 : (c.toNat + 256 - 48) % 256 > 9 := by omega
      simp only [Atoi.fast, if_pos h9]

theorem fast_bound (w : IntSize) (ds : GoString) (hd : allDigits ds)
    (hl : (w = .w32 ∧ ds.length < 10) ∨ (w = .w64 ∧ ds.length < 19)) :
    ((decimalValue ds : Nat) : Int) ≤ maxInt w := by
  have hlt := decimalFrom_lt ds hd 0
  rw [maxInt_eq]
  rcases hl with ⟨rfl, hl⟩ | ⟨rfl, hl⟩
  · have hpow : 10 ^ ds.length ≤ 10 ^ 9 := Nat.pow_le_pow_right (by omega) (by omega)
    have h2 : (2 : Nat) ^ (IntSize.w32.bits - 1) = 2147483648 := rfl
    have h10 : (10 : Nat) ^ 9 = 1000000000 := by norm_num
    unfold decimalValue
    omega
  · have hpow : 10 ^ ds.length ≤ 10 ^ 18 := Nat.pow_le_pow_right (by omega) (by omega)
    have h2 : (2 : Nat) ^ (IntSize.w64.bits - 1) = 9223372036854775808 := rfl
    have h10 : (10 : Nat) ^ 18 = 1000000000000000000 := by norm_num
    unfold decimalValue
    omega

theorem Atoi.fast_ok_zero (w : IntSize) (s0 ds : GoString) (hd : allDigits ds)
    (hle : ((decimalValue ds : Nat) : Int) ≤ maxInt w) :
    Atoi.fast w s0 ds 0 = (((decimalValue ds : Nat) : Int), none) :=
  Atoi.fast_ok w s0 ds 0 hd hle

theorem Atoi_ok (w : IntSize) (s : GoString) (h : ValidIntLiteral w s) :
    Atoi w s = (literalValue s, none) := by
  unfold Atoi
  by_cases hP : (w = .w32 ∧ 0 < s.length ∧ s.length < 10) ∨ (w = .w64 ∧ 0 < s.length ∧ s.length < 19)
  · simp only [if_pos hP]
    obtain ⟨hlit, hmin, hmax⟩ := h
    match s, hlit, hmin, hmax, hP with
    | c :: rest, hlit, hmin, hmax, hP =>
      have hlen : (w = .w32 ∧ rest.length < 10) ∨ (w = .w64 ∧ rest.length < 19) := by
        simp only [List.length_cons] at hP
        rcases hP with ⟨h1, _, h2⟩ | ⟨h1, _, h2⟩
        · left; exact ⟨h1, by omega⟩
        · right; exact ⟨h1, by omega⟩
      by_cases h45 : c = 45
      · have hs : c = 45 ∨ c = 43 := Or.inl h45
        have hs' : c = 43 ∨ c = 45 := Or.inr h45
        simp only [IsDecimalLiteral, if_pos hs'] at hlit
        have hl1 : ¬ (rest.length < 1) := by
          have := List.length_pos.2 hlit.1
          omega
        have hf := Atoi.fast_ok_zero w (c :: rest) rest hlit.2 (fast_bound w rest hlit.2 hlen)
        simp only [literalValue, if_pos h45] at hmin hmax ⊢
        simp only [if_pos hs, if_neg hl1, hf, if_pos h45]
        rw [toInt_id w _ hmin hmax]
      · by_cases h43 : c = 43
        · have hs : c = 45 ∨ c = 43 := Or.inr h43
          have hs' : c = 43 ∨ c = 45 := Or.inl h43
          simp only [IsDecimalLiteral, if_pos hs'] at hlit
          have hl1 : ¬ (rest.length < 1) := by
            have := List.length_pos.2 hlit.1
            omega
          have hf := Atoi.fast_ok_zero w (c :: rest) rest hlit.2 (fast_bound w rest hlit.2 hlen)
          simp only [literalValue, if_neg h45, if_pos h43]
          simp only [if_pos hs, if_neg hl1, hf, if_neg h45]
        · have hs : ¬ (c = 45 ∨ c = 43) := by
            intro hh; rcases hh with hh | hh
            · exact h45 hh
            · exact h43 hh
          have hs' : ¬ (c = 43 ∨ c = 45) := by
            intro hh; rcases hh with hh | hh
            · exact h43 hh
            · exact h45 hh
          simp only [IsDecimalLiteral, if_neg hs'] at hlit
          simp only [literalValue, if_neg h45, if_neg h43] at hmax ⊢
          have hf := Atoi.fast_ok_zero w (c :: rest) (c :: rest) hlit hmax
          simp only [if_neg hs, hf, if_neg h45]
  · simp only [if_neg hP, ParseInt_ok w s h]
    rw [toInt_id w _ h.2.1 h.2.2]

theorem minInt_le_maxInt (w : IntSize) : minInt w ≤ 0 ∧ 0 ≤ maxInt w ∧ minInt w ≤ maxInt w ∧
    -(maxInt w) ≥ minInt w := by
  have hp := two_pow_bits w
  rw [maxInt_eq, minInt_eq]
  omega

theorem Atoi_err (w : IntSize) (s : GoString) (h : ¬ ValidIntLiteral w s) :
    Atoi w s = (0, some (syntaxError "Atoi" s)) ∨
    Atoi w s = (maxInt w, some (rangeError "Atoi" s)) ∨
    Atoi w s = (minInt w, some (rangeError "Atoi" s)) := by
  have hmm := minInt_le_maxInt w
  unfold Atoi
  by_cases hP : (w = .w32 ∧ 0 < s.length ∧ s.length < 10) ∨ (w = .w64 ∧ 0 < s.length ∧ s.length < 19)
  · simp only [if_pos hP]
    left
    match s, h, hP with
    | [], _, hP => simp at hP
    | c :: rest, h, hP =>
      have hlenS : (w = .w32 ∧ (c :: rest).length < 10) ∨ (w = .w64 ∧ (c :: rest).length < 19) := by
        rcases hP with ⟨h1, _, h2⟩ | ⟨h1, _, h2⟩
        · left; exact ⟨h1, h2⟩
        · right; exact ⟨h1, h2⟩
      have hlen : (w = .w32 ∧ rest.length < 10) ∨ (w = .w64 ∧ rest.length < 19) := by
        simp only [List.length_cons] at hlenS
        rcases hlenS with ⟨h1, h2⟩ | ⟨h1, h2⟩
        · left; exact ⟨h1, by omega⟩
        · right; exact ⟨h1, by omega⟩
      by_cases hs : c = 45 ∨ c = 43
      · have hs' : c = 43 ∨ c = 45 := hs.symm
        simp only [if_pos hs]
        by_cases hl1 : rest.length < 1
        · simp only [if_pos hl1]
        · simp only [if_neg hl1]
          have hne : rest ≠ [] := by
            intro hh; rw [hh] at hl1; exact hl1 (by decide)
          have hnd : ¬ allDigits rest := by
            intro hd
            have hb := fast_bound w rest hd hlen
            apply h
            refine ⟨?_, ?_, ?_⟩
            · simp only [IsDecimalLiteral, if_pos hs']
              exact ⟨hne, hd⟩
            · simp only [literalValue]
              split_ifs <;> omega
            · simp only [literalValue]
              split_ifs <;> first | omega | (exfalso; tauto)
          simp only [Atoi.fast_err w (c :: rest) rest 0 hnd]
      · have hs' : ¬ (c = 43 ∨ c = 45) := fun hh => hs hh.symm
        simp only [if_neg hs]
        have hnd : ¬ allDigits (c :: rest) := by
          intro hd
          have hb := fast_bound w (c :: rest) hd hlenS
          apply h
          refine ⟨?_, ?_, ?_⟩
          · simp only [IsDecimalLiteral, if_neg hs']
            exact hd
          · simp only [literalValue]
            split_ifs <;> first | omega | (exfalso; tauto)
          · simp only [literalValue]
            split_ifs
            · exact absurd (Or.inl ‹c = 45›) hs
            · exact absurd (Or.inr ‹c = 43›) hs
            · exact hb
        simp only [Atoi.fast_err w (c :: rest) (c :: rest) 0 hnd]
  · simp only [if_neg hP]
    rcases ParseInt_err w s h with he | he | he
    · left
      simp only [he, syntaxError]
      rw [toInt_id w 0 hmm.1 hmm.2.1]
    · right; left
      simp only [he, rangeError]
      rw [toInt_id w _ hmm.2.2.1 (le_refl _)]
    · right; right
      simp only [he, rangeError]
      rw [toInt_id w _ (le_refl _) hmm.2.2.1]

/-- `Atoi` succeeds exactly on the valid `int` literals, and then returns the
value of the literal. -/
theorem Atoi_spec (w : IntSize) (s : GoString) :
    ((Atoi w s).2 = none ↔ ValidIntLiteral w s) ∧
    (ValidIntLiteral w s → (Atoi w s).1 = literalValue s) := by
  constructor
  · constructor
    · intro h
      by_contra hv
      rcases Atoi_err w s hv with he | he | he <;> rw [he] at h <;> exact absurd h (by simp)
    · intro hv
      rw [Atoi_ok w s hv]
  · intro hv
    rw [Atoi_ok w s hv]

/-- The value `Atoi` returns next to an error: `0` with a syntax error, the
largest or the smallest `int` with a range error. -/
theorem Atoi_error_value (w : IntSize) (s : GoString) (e : NumError)
    (h : (Atoi w s).2 = some e) :
    (e.Err = .ErrSyntax → (Atoi w s).1 = 0) ∧
    (e.Err = .ErrRange → (Atoi w s).1 = maxInt w ∨ (Atoi w s).1 = minInt w) := by
  have hv : ¬ ValidIntLiteral w s := by
    intro hv
    rw [Atoi_ok w s hv] at h
    exact absurd h (by simp)
  rcases Atoi_err w s hv with he | he | he
  · rw [he] at h ⊢
    simp only [Option.some.injEq] at h
    subst h
    exact ⟨fun _ => rfl, fun hk => absurd hk (by simp [syntaxError])⟩
  · rw [he] at h ⊢
    simp only [Option.some.injEq] at h
    subst h
    exact ⟨fun hk => absurd hk (by simp [rangeError]), fun _ => Or.inl rfl⟩
  · rw [he] at h ⊢
    simp only [Option.some.injEq] at h
    subst h
    exact ⟨fun hk => absurd hk (by simp [rangeError]), fun _ => Or.inr rfl⟩

/-! ## `strings.ToUpper` on ASCII keys -/

theorem upperByte_toNat (c : UInt8) :
    (upperByte c).toNat = if 97 ≤ c.toNat ∧ c.toNat ≤ 122 then c.toNat - 32 else c.toNat := by
  unfold upperByte
  have hlt := byte_lt c
  split
  · rw [UInt8.toNat_ofNat_of_lt]
    show c.toNat - 32 < 256
    omega
  · rfl

theorem upperByte_sameLetter (a b : UInt8) (h : sameLetter a b = true) :
    upperByte a = upperByte b := by
  apply UInt8.toNat.inj
  rw [upperByte_toNat, upperByte_toNat]
  unfold sameLetter at h
  rcases of_decide_eq_true h with h | h | h
  · rw [h]
  · have h1 : 97 ≤ a.toNat ∧ a.toNat ≤ 122 := ⟨h.1, h.2.1⟩
    have h2 : ¬ (97 ≤ b.toNat ∧ b.toNat ≤ 122) := by omega
    rw [if_pos h1, if_neg h2]
    omega
  · have h1 : 97 ≤ b.toNat ∧ b.toNat ≤ 122 := ⟨h.1, h.2.1⟩
    have h2 : ¬ (97 ≤ a.toNat ∧ a.toNat ≤ 122) := by omega
    rw [if_pos h1, if_neg h2]
    omega

theorem map_upperByte_of_not_hasLower (s : GoString) (h : hasLower s = false) :
    s.map upperByte = s := by
  induction s with
  | nil => rfl
  | cons c rest ih =>
    simp only [hasLower, List.any_cons, Bool.or_eq_false_iff, decide_eq_false_iff_not] at h
    have hr : hasLower rest = false := h.2
    simp only [List.map_cons, ih hr]
    unfold upperByte
    rw [if_neg h.1]

/-- On a string of ASCII bytes, `ToUpper` is the bytewise upper-casing. -/
theorem ToUpper_ascii (mapUpper : GoString → GoString) (s : GoString) (h : isASCII s = true) :
    ToUpper mapUpper s = s.map upperByte := by
  unfold ToUpper
  rw [if_pos h]
  cases hl : hasLower s
  · simp only [Bool.not_false, if_true]
    exact (map_upperByte_of_not_hasLower s hl).symm
  · simp only [Bool.not_true, Bool.false_eq_true, if_false]

theorem differOnlyInCase_map (s t : GoString) (h : differOnlyInCase s t = true) :
    s.map upperByte = t.map upperByte := by
  induction s generalizing t with
  | nil =>
    cases t with
    | nil => rfl
    | cons b t => simp [differOnlyInCase] at h
  | cons a s ih =>
    cases t with
    | nil => simp [differOnlyInCase] at h
    | cons b t =>
      simp only [differOnlyInCase, Bool.and_eq_true] at h
      simp only [List.map_cons, upperByte_sameLetter a b h.1, ih t h.2]

theorem differOnlyInCase_ascii (s t : GoString) (h : differOnlyInCase s t = true)
    (hs : isASCII s = true) : isASCII t = true := by
  induction s generalizing t with
  | nil =>
    cases t with
    | nil => rfl
    | cons b t => simp [differOnlyInCase] at h
  | cons a s ih =>
    cases t with
    | nil => simp [differOnlyInCase] at h
    | cons b t =>
      simp only [differOnlyInCase, Bool.and_eq_true] at h
      simp only [isASCII, List.all_cons, Bool.and_eq_true, decide_eq_true_eq] at hs ⊢
      refine ⟨?_, ih t h.2 hs.2⟩
      have h1 := h.1
      unfold sameLetter at h1
      rcases of_decide_eq_true h1 with h1 | h1 | h1
      · rw [← h1]; exact hs.1
      · omega
      · omega

theorem ToUpper_differOnlyInCase (mapUpper : GoString → GoString) (s t : GoString)
    (hs : isASCII s = true) (h : differOnlyInCase s t = true) :
    ToUpper mapUpper s = ToUpper mapUpper t := by
  rw [ToUpper_ascii mapUpper s hs, ToUpper_ascii mapUpper t (differOnlyInCase_ascii s t h hs)]
  exact differOnlyInCase_map s t h

/-! ## The loop over the fields -/

theorem bindField_returning_panic {σ : Type} (w : IntSize)
    (gs : σ → GoString → GoString × σ) (gi : σ → GoString → (Int × Option GoError) × σ)
    (f : StructField) (v : Value) (st : σ) :
    (bindField w (ConfigLocation.returning gs gi) f v st).panic = none := by
  unfold bindField
  split
  · rfl
  · split <;> rfl

theorem bindField_untouched {σ : Type} (w : IntSize) (location : ConfigLocation σ)
    (f : StructField) (v : Value) (st : σ)
    (h : CanSet f = false ∨ (v.Kind ≠ .String ∧ v.Kind ≠ .Int)) :
    (bindField w location f v st).value = v ∧
    (bindField w location f v st).panic = none ∧
    (bindField w location f v st).source = st ∧
    (bindField w location f v st).queries = [] := by
  unfold bindField
  by_cases hset : CanSet f = true
  · rcases h with h | ⟨h1, h2⟩
    · rw [h] at hset; exact absurd hset (by decide)
    · simp only [hset, Bool.not_true, Bool.false_eq_true, if_false]
      exact ⟨trivial, trivial, trivial, trivial⟩
  · have hf : CanSet f = false := by
      cases hc : CanSet f
      · rfl
      · exact absurd hc hset
    simp only [hf]
    exact ⟨rfl, rfl, rfl, rfl⟩

theorem bindField_string_of_call {σ : Type} (w : IntSize) (location : ConfigLocation σ)
    (f : StructField) (v : Value) (st st1 : σ) (answer : GoString)
    (hset : CanSet f = true) (hk : v.Kind = .String)
    (hcall : location.GetString st f.Name = (.ok answer, st1)) :
    (bindField w location f v st).value =
      .string (if answer = [] then f.Tag.Get (GoString.ofString "default") else answer) := by
  unfold bindField
  simp only [hset, hk, hcall, SetString]
  rfl

theorem bindField_int_of_call {σ : Type} (w : IntSize) (location : ConfigLocation σ)
    (f : StructField) (v : Value) (st st1 : σ) (n : Int) (err : Option GoError)
    (hset : CanSet f = true) (hk : v.Kind = .Int)
    (hcall : location.GetInt st f.Name = (.ok (n, err), st1)) :
    (bindField w location f v st).value =
      .int (if err ≠ none then (Atoi w (f.Tag.Get (GoString.ofString "default"))).1 else n) := by
  unfold bindField
  simp only [hset, hk, hcall, SetInt]
  rfl

theorem bindFields_returning {σ : Type} (w : IntSize)
    (gs : σ → GoString → GoString × σ) (gi : σ → GoString → (Int × Option GoError) × σ) :
    ∀ (fields : List (StructField × Value)) (st : σ),
      (bindFields w (ConfigLocation.returning gs gi) fields st).panic = none ∧
      (bindFields w (ConfigLocation.returning gs gi) fields st).fields.length = fields.length := by
  intro fields
  induction fields with
  | nil => intro st; exact ⟨rfl, rfl⟩
  | cons x rest ih =>
    intro st
    obtain ⟨f, v⟩ := x
    have hp := bindField_returning_panic w gs gi f v st
    have := ih (bindField w (ConfigLocation.returning gs gi) f v st).source
    simp only [bindFields, hp, List.length_cons, this]
    exact ⟨trivial, trivial⟩

/-- The loop step by step: when the first field is bound without a panic, the
loop continues with the remaining fields from the state the source is left in. -/
theorem bindFields_cons {σ : Type} (w : IntSize) (location : ConfigLocation σ)
    (f : StructField) (v : Value) (rest : List (StructField × Value)) (st : σ)
    (hp : (bindField w location f v st).panic = none) :
    bindFields w location ((f, v) :: rest) st =
      { fields := (f, (bindField w location f v st).value) ::
          (bindFields w location rest (bindField w location f v st).source).fields,
        panic := (bindFields w location rest (bindField w location f v st).source).panic,
        source := (bindFields w location rest (bindField w location f v st).source).source,
        queries := (bindField w location f v st).queries ++
          (bindFields w location rest (bindField w location f v st).source).queries,
        logs := (bindField w location f v st).logs ++
          (bindFields w location rest (bindField w location f v st).source).logs } := by
  simp only [bindFields, hp]

/-- The field at position `i` after the loop, for any source: if the loop over
the first `i` fields ends without a panic, the field holds the result of
binding it in the state in which those fields leave the source (also when a
later field panics). -/
theorem bindFields_getElem_of_reached {σ : Type} (w : IntSize) (location : ConfigLocation σ) :
    ∀ (fields : List (StructField × Value)) (st : σ) (i : Nat) (f : StructField) (v : Value),
      fields[i]? = some (f, v) →
      (bindFields w location (fields.take i) st).panic = none →
      (bindFields w location fields st).fields[i]? =
        some (f, (bindField w location f v
          (bindFields w location (fields.take i) st).source).value) := by
  intro fields
  induction fields with
  | nil => intro st i f v h; simp at h
  | cons x rest ih =>
    intro st i f v h hreach
    obtain ⟨f0, v0⟩ := x
    cases i with
    | zero =>
      simp only [List.getElem?_cons_zero, Option.some.injEq, Prod.mk.injEq] at h
      obtain ⟨rfl, rfl⟩ := h
      cases hp : (bindField w location f0 v0 st).panic with
      | some p => simp only [bindFields, hp, List.getElem?_cons_zero, List.take_zero]
      | none => simp only [bindFields, hp, List.getElem?_cons_zero, List.take_zero]
    | succ j =>
      simp only [List.getElem?_cons_succ] at h
      simp only [List.take_succ_cons] at hreach ⊢
      cases hp : (bindField w location f0 v0 st).panic with
      | some p =>
        simp only [bindFields, hp] at hreach
        exact absurd hreach (by simp)
      | none =>
        rw [bindFields_cons w location f0 v0 (List.take j rest) st hp] at hreach ⊢
        rw [bindFields_cons w location f0 v0 rest st hp]
        simp only [List.getElem?_cons_succ]
        exact ih _ j f v h hreach

/-- An integer field whose source call returns an error receives the value that
`Atoi` returns for the value of the tag key `default`, whether or not `Atoi`
reports an error for it. -/
theorem int_field_fallback {σ : Type} (w : IntSize) (location : ConfigLocation σ)
    (st st1 : σ) (fields : List (StructField × Value)) (i : Nat) (f : StructField) (v : Value)
    (n : Int) (err : Option GoError)
    (hi : fields[i]? = some (f, v)) (hset : CanSet f = true) (hkind : v.Kind = .Int)
    (hreach : (bindFields w location (fields.take i) st).panic = none)
    (hcall : location.GetInt (bindFields w location (fields.take i) st).source f.Name =
      (.ok (n, err), st1))
    (herr : err ≠ none) :
    (bindFields w location fields st).fields[i]? =
      some (f, .int (Atoi w (f.Tag.Get (GoString.ofString "default"))).1) := by
  rw [bindFields_getElem_of_reached w location fields st i f v hi hreach,
    bindField_int_of_call w location f v _ st1 n err hset hkind hcall, if_pos herr]

/-- A field that the loop leaves untouched (it cannot be set, or its kind is
neither `String` nor `Int`) could as well be absent: the loop over the struct
without it makes the same source calls, leaves the source in the same state,
ends the same way and gives the other fields the same values. -/
theorem bindFields_eraseIdx {σ : Type} (w : IntSize) (location : ConfigLocation σ) :
    ∀ (fields : List (StructField × Value)) (st : σ) (i : Nat) (f : StructField) (v : Value),
      fields[i]? = some (f, v) →
      (CanSet f = false ∨ (v.Kind ≠ .String ∧ v.Kind ≠ .Int)) →
      (bindFields w location fields st).fields[i]? = some (f, v) ∧
      (bindFields w location fields st).fields.eraseIdx i =
        (bindFields w location (fields.eraseIdx i) st).fields ∧
      (bindFields w location fields st).queries =
        (bindFields w location (fields.eraseIdx i) st).queries ∧
      (bindFields w location fields st).source =
        (bindFields w location (fields.eraseIdx i) st).source ∧
      (bindFields w location fields st).panic =
        (bindFields w location (fields.eraseIdx i) st).panic := by
  intro fields
  induction fields with
  | nil => intro st i f v h; simp at h
  | cons x rest ih =>
    intro st i f v h hu
    obtain ⟨f0, v0⟩ := x
    cases i with
    | zero =>
      simp only [List.getElem?_cons_zero, Option.some.injEq, Prod.mk.injEq] at h
      obtain ⟨rfl, rfl⟩ := h
      obtain ⟨h1, h2, h3, h4⟩ := bindField_untouched w location f0 v0 st hu
      rw [bindFields_cons w location f0 v0 rest st h2]
      simp only [h1, h3, h4, List.getElem?_cons_zero, List.eraseIdx_cons_zero, List.nil_append]
      exact ⟨trivial, trivial, trivial, trivial, trivial⟩
    | succ j =>
      simp only [List.getElem?_cons_succ] at h
      simp only [List.eraseIdx_cons_succ]
      cases hp : (bindField w location f0 v0 st).panic with
      | some p =>
        simp only [bindFields, hp, List.getElem?_cons_succ, List.eraseIdx_cons_succ, h]
        exact ⟨trivial, trivial, trivial, trivial, trivial⟩
      | none =>
        rw [bindFields_cons w location f0 v0 rest st hp,
          bindFields_cons w location f0 v0 (rest.eraseIdx j) st hp]
        obtain ⟨a1, a2, a3, a4, a5⟩ := ih (bindField w location f0 v0 st).source j f v h hu
        simp only [List.getElem?_cons_succ, List.eraseIdx_cons_succ, a1, a2, a3, a4, a5]
        exact ⟨trivial, trivial, trivial, trivial, trivial⟩

theorem StructTag.Get_absent (tag : StructTag) (key : GoString)
    (h : ∀ kv ∈ tag, kv.1 ≠ key) : StructTag.Get tag key = [] := by
  unfold StructTag.Get
  have : tag.find? (fun kv => kv.1 = key) = none := by
    rw [List.find?_eq_none]
    intro kv hkv
    simpa using h kv hkv
  rw [this]

/-! ## `ParseFromLocation` by shape of the destination -/

theorem recovered_eq_nil (p : Option PanicValue)
    (h : recovered (match p with
      | some q => Outcome.panicked q
      | none => Outcome.returned none) = .returned none) : p = none := by
  cases p with
  | none => rfl
  | some q =>
    cases q with
    | runtimeError d => exact absurd h (by simp [recovered])
    | error e => exact absurd h (by simp [recovered])
    | nonError r => exact absurd h (by simp [recovered])

theorem ParseFromLocation_struct {σ : Type} (w : IntSize) (location : ConfigLocation σ)
    (fields : List (StructField × Value)) (st : σ) :
    ParseFromLocation w (some (.pointer (.struct fields))) location st =
      { outcome := recovered (match (bindFields w location fields st).panic with
          | some p => .panicked p
          | none => .returned none),
        config := some (.pointer (.struct (bindFields w location fields st).fields)),
        source := (bindFields w location fields st).source,
        queries := (bindFields w location fields st).queries,
        logs := (bindFields w location fields st).logs } := by
  simp only [ParseFromLocation, ParseFromLocation.body, elems, Value.Kind, ne_eq,
    not_true_eq_false, if_false]

theorem ParseFromLocation_struct_returning {σ : Type} (w : IntSize)
    (gs : σ → GoString → GoString × σ) (gi : σ → GoString → (Int × Option GoError) × σ)
    (fields : List (StructField × Value)) (st : σ) :
    ParseFromLocation w (some (.pointer (.struct fields))) (ConfigLocation.returning gs gi) st =
      { outcome := .returned none,
        config := some (.pointer (.struct
          (bindFields w (ConfigLocation.returning gs gi) fields st).fields)),
        source := (bindFields w (ConfigLocation.returning gs gi) fields st).source,
        queries := (bindFields w (ConfigLocation.returning gs gi) fields st).queries,
        logs := (bindFields w (ConfigLocation.returning gs gi) fields st).logs } := by
  rw [ParseFromLocation_struct, (bindFields_returning w gs gi fields st).1]
  rfl

theorem ParseFromLocation_not_pointer {σ : Type} (w : IntSize) (location : ConfigLocation σ)
    (st : σ) (v : Value) (h : v.Kind ≠ .Ptr) :
    ParseFromLocation w (some v) location st =
      { outcome := .returned (some (.ValueError "reflect.Value.Elem" v.Kind)),
        config := some v, source := st, queries := [], logs := [] } := by
  cases v with
  | string s => rfl
  | int n => rfl
  | struct fields => rfl
  | nilPointer elem => exact absurd rfl h
  | pointer target => exact absurd rfl h
  | other k repr => rfl

theorem ParseFromLocation_nil {σ : Type} (w : IntSize) (location : ConfigLocation σ) (st : σ) :
    ParseFromLocation w none location st =
      { outcome := .returned (some (.ValueError "reflect.Value.Elem" .Invalid)),
        config := none, source := st, queries := [], logs := [] } := rfl

theorem ParseFromLocation_nilPointer {σ : Type} (w : IntSize) (location : ConfigLocation σ)
    (st : σ) (elem : Kind) :
    ParseFromLocation w (some (.nilPointer elem)) location st =
      { outcome := .returned (some ErrInvalidConfigVariable),
        config := some (.nilPointer elem), source := st, queries := [], logs := [] } := rfl

theorem ParseFromLocation_pointer_not_struct {σ : Type} (w : IntSize)
    (location : ConfigLocation σ) (st : σ) (target : Value) (h : target.Kind ≠ .Struct) :
    ParseFromLocation w (some (.pointer target)) location st =
      { outcome := .returned (some ErrInvalidConfigVariable),
        config := some (.pointer target), source := st, queries := [], logs := [] } := by
  cases target with
  | string s => rfl
  | int n => rfl
  | struct fields => exact absurd rfl h
  | nilPointer elem => rfl
  | pointer target => rfl
  | other k repr => rfl

/-! ## The binder: text and integer fields -/

/-- C1: for a pointer to a struct, any source, and any settable field of kind
`String` (at position `i`): when the loop reaches the field and the call
`GetString(field.Name)` returns `answer`, the field holds after
`ParseFromLocation` the string `answer` if it is non-empty, and otherwise the
value of the tag key `default`, which is the empty string when the tag has no
such key.  So a non-empty source value takes precedence over any default.
(With a source that returns normally the loop reaches every field.) -/
theorem text_field_bound {σ : Type} (w : IntSize) (location : ConfigLocation σ)
    (st st1 : σ) (fields : List (StructField × Value)) (i : Nat) (f : StructField) (v : Value)
    (answer : GoString)
    (hi : fields[i]? = some (f, v)) (hset : CanSet f = true) (hkind : v.Kind = .String)
    (hreach : (ParseFromLocation w (some (.pointer (.struct (fields.take i)))) location st).outcome
      = .returned none)
    (hcall : location.GetString (sourceBefore w location fields st i) f.Name = (.ok answer, st1)) :
    ∃ fields' : List (StructField × Value),
      (ParseFromLocation w (some (.pointer (.struct fields))) location st).config =
        some (.pointer (.struct fields')) ∧
      fields'[i]? = some (f, .string
        (if answer = [] then f.Tag.Get (GoString.ofString "default") else answer)) ∧
      (answer ≠ [] → fields'[i]? = some (f, .string answer)) ∧
      (answer = [] → (∀ kv ∈ f.Tag, kv.1 ≠ GoString.ofString "default") →
        fields'[i]? = some (f, .string [])) := by
  rw [ParseFromLocation_struct] at hreach
  have hp := recovered_eq_nil _ hreach
  simp only [sourceBefore, ParseFromLocation_struct] at hcall
  have hget := bindFields_getElem_of_reached w location fields st i f v hi hp
  rw [bindField_string_of_call w location f v _ st1 answer hset hkind hcall] at hget
  refine ⟨(bindFields w location fields st).fields, ?_, hget, ?_, ?_⟩
  · rw [ParseFromLocation_struct]
  · intro hne
    rw [hget, if_neg hne]
  · intro he hno
    rw [hget, if_pos he, StructTag.Get_absent _ _ hno]

set_option maxRecDepth 100000 in
theorem text_field_bound_witness :
    exampleFields[0]? = some (hostField, .string []) ∧ CanSet hostField = true ∧
    (Value.string []).Kind = .String ∧
    (ParseFromLocation .w64 (some (.pointer (.struct (exampleFields.take 0))))
      (EnvConfig id .w64 exampleEnv) ()).outcome = .returned none ∧
    (EnvConfig id .w64 exampleEnv).GetString
      (sourceBefore .w64 (EnvConfig id .w64 exampleEnv) exampleFields () 0) hostField.Name =
      (.ok [], ()) ∧
    ∃ fields' : List (StructField × Value),
      (ParseFromLocation .w64 (some (.pointer (.struct exampleFields)))
        (EnvConfig id .w64 exampleEnv) ()).config = some (.pointer (.struct fields')) ∧
      fields'[0]? = some (hostField, .string (GoString.ofString "localhost")) :=
  ⟨rfl, rfl, rfl, rfl, rfl,
    (text_field_bound .w64 (EnvConfig id .w64 exampleEnv) () () exampleFields 0 hostField
      (.string []) [] rfl rfl rfl rfl rfl).imp (fun _ h => ⟨h.1, h.2.1⟩)⟩

/-- C2: for a pointer to a struct, any source, and any settable field of kind
`Int` (at position `i`): when the loop reaches the field and the call
`GetInt(field.Name)` returns the integer `n` and the error `err`, then after
`ParseFromLocation` the field holds `n` if `err` is nil, whatever the default;
and if `err` is not nil and the value of the tag key `default` is a valid
base-10 `int` literal, the field holds the value of that literal.
(With a source that returns normally the loop reaches every field.) -/
theorem int_field_bound {σ : Type} (w : IntSize) (location : ConfigLocation σ)
    (st st1 : σ) (fields : List (StructField × Value)) (i : Nat) (f : StructField) (v : Value)
    (n : Int) (err : Option GoError)
    (hi : fields[i]? = some (f, v)) (hset : CanSet f = true) (hkind : v.Kind = .Int)
    (hreach : (ParseFromLocation w (some (.pointer (.struct (fields.take i)))) location st).outcome
      = .returned none)
    (hcall : location.GetInt (sourceBefore w location fields st i) f.Name = (.ok (n, err), st1)) :
    ∃ fields' : List (StructField × Value),
      (ParseFromLocation w (some (.pointer (.struct fields))) location st).config =
        some (.pointer (.struct fields')) ∧
      (err = none → fields'[i]? = some (f, .int n)) ∧
      (err ≠ none → ValidIntLiteral w (f.Tag.Get (GoString.ofString "default")) →
        fields'[i]? = some (f, .int (literalValue (f.Tag.Get (GoString.ofString "default"))))) := by
  rw [ParseFromLocation_struct] at hreach
  have hp := recovered_eq_nil _ hreach
  simp only [sourceBefore, ParseFromLocation_struct] at hcall
  have hget := bindFields_getElem_of_reached w location fields st i f v hi hp
  rw [bindField_int_of_call w location f v _ st1 n err hset hkind hcall] at hget
  refine ⟨(bindFields w location fields st).fields, ?_, ?_, ?_⟩
  · rw [ParseFromLocation_struct]
  · intro herr
    rw [hget, if_neg (not_not.2 herr)]
  · intro herr hvalid
    rw [hget, if_pos herr, (Atoi_spec w _).2 hvalid]

set_option maxRecDepth 100000 in
theorem int_field_bound_witness :
    exampleFields[1]? = some (portField, .int 0) ∧ CanSet portField = true ∧
    (Value.int 0).Kind = .Int ∧
    (ParseFromLocation .w64 (some (.pointer (.struct (exampleFields.take 1))))
      (EnvConfig id .w64 emptyEnv) ()).outcome = .returned none ∧
    (EnvConfig id .w64 emptyEnv).GetInt
      (sourceBefore .w64 (EnvConfig id .w64 emptyEnv) exampleFields () 1) portField.Name =
      (.ok (0, some (.NumError (syntaxError "Atoi" []))), ()) ∧
    ValidIntLiteral .w64 (portField.Tag.Get (GoString.ofString "default")) ∧
    ∃ fields' : List (StructField × Value),
      (ParseFromLocation .w64 (some (.pointer (.struct exampleFields)))
        (EnvConfig id .w64 emptyEnv) ()).config = some (.pointer (.struct fields')) ∧
      fields'[1]? = some (portField, .int 8080) :=
  ⟨rfl, rfl, rfl, rfl, rfl, by decide,
    (int_field_bound .w64 (EnvConfig id .w64 emptyEnv) () () exampleFields 1 portField
      (.int 0) 0 (some (.NumError (syntaxError "Atoi" []))) rfl rfl rfl rfl rfl).imp
      (fun _ h => ⟨h.1, h.2.2 (by decide) (by decide)⟩)⟩

set_option maxRecDepth 100000 in
/-- C3 at a failing input: the struct has the single field
``Port int `default:"9223372036854775808"` `` and the environment is empty, so
`GetInt("Port")` fails and the default is not parseable as a 64-bit `int` (it is
out of range).  `Parse` returns `nil`, but the field is set to
`9223372036854775807`, the value `strconv.Atoi` returns next to its range
error, and not to `0`. -/
theorem int_field_out_of_range_default :
    (EnvConfig.GetInt id .w64 emptyEnv bigPortField.Name).2 ≠ none ∧
    (Atoi .w64 (bigPortField.Tag.Get (GoString.ofString "default"))).2 ≠ none ∧
    ¬ ValidIntLiteral .w64 (bigPortField.Tag.Get (GoString.ofString "default")) ∧
    (Parse id .w64 emptyEnv (some (.pointer (.struct [(bigPortField, .int 0)])))).outcome =
      .returned none ∧
    (Parse id .w64 emptyEnv (some (.pointer (.struct [(bigPortField, .int 0)])))).config =
      some (.pointer (.struct [(bigPortField, .int 9223372036854775807)])) :=
  ⟨by decide, by decide, by decide, by decide, rfl⟩

/-! ## The binder: returned errors -/

/-- C4: for a non-nil pointer to a struct, whatever the names, kinds,
settability, tags and contents of its fields, and for every source whose
methods return normally (with any values and errors), `ParseFromLocation`
returns `nil`. -/
theorem struct_pointer_returns_nil {σ : Type} (w : IntSize)
    (gs : σ → GoString → GoString × σ) (gi : σ → GoString → (Int × Option GoError) × σ)
    (st : σ) (fields : List (StructField × Value)) :
    (ParseFromLocation w (some (.pointer (.struct fields)))
      (ConfigLocation.returning gs gi) st).outcome = .returned none := by
  rw [ParseFromLocation_struct_returning]

/-- C5 fails for a struct passed by value: `reflect.ValueOf(config).Elem()`
panics with a `*reflect.ValueError`, the deferred function returns that value
as the error, and it is not `ErrInvalidConfigVariable`. -/
theorem struct_by_value_not_sentinel :
    (ParseFromLocation .w64 (some (.struct exampleFields)) (EnvConfig id .w64 emptyEnv) ()).outcome
      = .returned (some (.ValueError "reflect.Value.Elem" .Struct)) ∧
    (ParseFromLocation .w64 (some (.struct exampleFields)) (EnvConfig id .w64 emptyEnv) ()).outcome
      ≠ .returned (some ErrInvalidConfigVariable) :=
  ⟨rfl, by decide⟩

/-- C5 as amended: a pointer to a value that is not a struct makes
`ParseFromLocation` return exactly `ErrInvalidConfigVariable`; a destination
that is not a pointer (a struct passed by value, a scalar, a map, a slice)
makes it return the `*reflect.ValueError` of `reflect.Value.Elem` for the
destination's kind, a non-nil error that is not the sentinel.  In both cases
the call returns and does not panic, for every source. -/
theorem invalid_destination_error {σ : Type} (w : IntSize) (location : ConfigLocation σ)
    (st : σ) (v : Value) :
    (v.Kind ≠ .Struct →
      (ParseFromLocation w (some (.pointer v)) location st).outcome =
        .returned (some ErrInvalidConfigVariable)) ∧
    (v.Kind ≠ .Ptr →
      (ParseFromLocation w (some v) location st).outcome =
        .returned (some (.ValueError "reflect.Value.Elem" v.Kind)) ∧
      GoError.ValueError "reflect.Value.Elem" v.Kind ≠ ErrInvalidConfigVariable) := by
  constructor
  · intro h
    rw [ParseFromLocation_pointer_not_struct w location st v h]
  · intro h
    rw [ParseFromLocation_not_pointer w location st v h]
    exact ⟨rfl, fun hh => GoError.noConfusion hh⟩

theorem invalid_destination_error_witness :
    (Value.other .Map 0).Kind ≠ .Struct ∧ (Value.other .Map 0).Kind ≠ .Ptr ∧
    (ParseFromLocation .w64 (some (.pointer (.other .Map 0))) (EnvConfig id .w64 emptyEnv) ()).outcome
      = .returned (some ErrInvalidConfigVariable) ∧
    (ParseFromLocation .w64 (some (.other .Map 0)) (EnvConfig id .w64 emptyEnv) ()).outcome
      = .returned (some (.ValueError "reflect.Value.Elem" .Map)) :=
  ⟨by decide, by decide,
    (invalid_destination_error .w64 (EnvConfig id .w64 emptyEnv) () (.other .Map 0)).1 (by decide),
    ((invalid_destination_error .w64 (EnvConfig id .w64 emptyEnv) () (.other .Map 0)).2
      (by decide)).1⟩

/-- C6: with a source that returns normally, whenever `ParseFromLocation`
returns a non-nil error the destination is what it was on entry, the source has
not been called and is in the state it was in. -/
theorem error_leaves_destination {σ : Type} (w : IntSize)
    (gs : σ → GoString → GoString × σ) (gi : σ → GoString → (Int × Option GoError) × σ)
    (st : σ) (config : Option Value) (e : GoError)
    (h : (ParseFromLocation w config (ConfigLocation.returning gs gi) st).outcome =
      .returned (some e)) :
    (ParseFromLocation w config (ConfigLocation.returning gs gi) st).config = config ∧
    (ParseFromLocation w config (ConfigLocation.returning gs gi) st).queries = [] ∧
    (ParseFromLocation w config (ConfigLocation.returning gs gi) st).source = st := by
  match config, h with
  | none, _ => exact ⟨rfl, rfl, rfl⟩
  | some (.string s), _ => exact ⟨rfl, rfl, rfl⟩
  | some (.int n), _ => exact ⟨rfl, rfl, rfl⟩
  | some (.struct fields), _ => exact ⟨rfl, rfl, rfl⟩
  | some (.nilPointer elem), _ => exact ⟨rfl, rfl, rfl⟩
  | some (.other k repr), _ => exact ⟨rfl, rfl, rfl⟩
  | some (.pointer (.string s)), _ => exact ⟨rfl, rfl, rfl⟩
  | some (.pointer (.int n)), _ => exact ⟨rfl, rfl, rfl⟩
  | some (.pointer (.nilPointer elem)), _ => exact ⟨rfl, rfl, rfl⟩
  | some (.pointer (.pointer target)), _ => exact ⟨rfl, rfl, rfl⟩
  | some (.pointer (.other k repr)), _ => exact ⟨rfl, rfl, rfl⟩
  | some (.pointer (.struct fields)), h =>
    rw [ParseFromLocation_struct_returning w gs gi fields st] at h
    exact absurd h (by simp)

theorem error_leaves_destination_witness :
    (ParseFromLocation .w64 (some (.pointer (.int 5)))
      (ConfigLocation.returning (fun (_ : Unit) _ => ([], ()))
        (fun _ _ => ((0, some (.other 0)), ()))) ()).outcome =
      .returned (some ErrInvalidConfigVariable) ∧
    (ParseFromLocation .w64 (some (.pointer (.int 5)))
      (ConfigLocation.returning (fun (_ : Unit) _ => ([], ()))
        (fun _ _ => ((0, some (.other 0)), ()))) ()).config = some (.pointer (.int 5)) :=
  ⟨rfl, (error_leaves_destination .w64 (fun (_ : Unit) _ => ([], ()))
    (fun _ _ => ((0, some (.other 0)), ())) () (some (.pointer (.int 5)))
    ErrInvalidConfigVariable rfl).1⟩

/-! ## The binder: fields it leaves alone -/

/-- C7: in a pointer to a struct, a field whose kind is neither `String` nor
`Int` (at position `i`) holds after `ParseFromLocation` the value it held on
entry, for every source; the loop iteration for it makes no call to the source
and leaves the source in its state, so the whole call makes the same source
calls and leaves the source in the same state as for the struct without that
field; and with a source that returns normally the call returns `nil`. -/
theorem unsupported_field_untouched {σ : Type} (w : IntSize) (location : ConfigLocation σ)
    (gs : σ → GoString → GoString × σ) (gi : σ → GoString → (Int × Option GoError) × σ)
    (st : σ) (fields : List (StructField × Value)) (i : Nat) (f : StructField) (v : Value)
    (hi : fields[i]? = some (f, v)) (hs : v.Kind ≠ .String) (hn : v.Kind ≠ .Int) :
    (∃ fields' : List (StructField × Value),
      (ParseFromLocation w (some (.pointer (.struct fields))) location st).config =
        some (.pointer (.struct fields')) ∧
      fields'[i]? = some (f, v)) ∧
    (∀ s : σ, (bindField w location f v s).queries = [] ∧
      (bindField w location f v s).source = s) ∧
    (ParseFromLocation w (some (.pointer (.struct fields))) location st).queries =
      (ParseFromLocation w (some (.pointer (.struct (fields.eraseIdx i)))) location st).queries ∧
    (ParseFromLocation w (some (.pointer (.struct fields))) location st).source =
      (ParseFromLocation w (some (.pointer (.struct (fields.eraseIdx i)))) location st).source ∧
    (ParseFromLocation w (some (.pointer (.struct fields)))
      (ConfigLocation.returning gs gi) st).outcome = .returned none := by
  obtain ⟨a1, _, a3, a4, _⟩ := bindFields_eraseIdx w location fields st i f v hi (Or.inr ⟨hs, hn⟩)
  refine ⟨⟨(bindFields w location fields st).fields, ?_, a1⟩, ?_, ?_, ?_, ?_⟩
  · rw [ParseFromLocation_struct]
  · intro s
    obtain ⟨_, _, b3, b4⟩ := bindField_untouched w location f v s (Or.inr ⟨hs, hn⟩)
    exact ⟨b4, b3⟩
  · rw [ParseFromLocation_struct, ParseFromLocation_struct]
    exact a3
  · rw [ParseFromLocation_struct, ParseFromLocation_struct]
    exact a4
  · rw [ParseFromLocation_struct_returning]

set_option maxRecDepth 100000 in
theorem unsupported_field_untouched_witness :
    exampleFields[2]? = some (ratioField, .other .Float64 7) ∧
    (Value.other .Float64 7).Kind ≠ .String ∧ (Value.other .Float64 7).Kind ≠ .Int ∧
    (∃ fields' : List (StructField × Value),
      (ParseFromLocation .w64 (some (.pointer (.struct exampleFields)))
        (EnvConfig id .w64 exampleEnv) ()).config = some (.pointer (.struct fields')) ∧
      fields'[2]? = some (ratioField, .other .Float64 7)) :=
  ⟨rfl, by decide, by decide,
    (unsupported_field_untouched .w64 (EnvConfig id .w64 exampleEnv)
      (fun (_ : Unit) _ => ([], ())) (fun _ _ => ((0, none), ())) () exampleFields 2 ratioField
      (.other .Float64 7) rfl (by decide) (by decide)).1⟩

/-- C8: in a pointer to a struct, a field that cannot be set (at position `i`),
whatever its kind and tag, holds after `ParseFromLocation` the value it held on
entry, for every source; the loop iteration for it makes no call to the source
and leaves the source in its state, so the whole call makes the same source
calls and leaves the source in the same state as for the struct without that
field; the iteration raises no panic, and with a source that returns normally
the call returns `nil`. -/
theorem unsettable_field_skipped {σ : Type} (w : IntSize) (location : ConfigLocation σ)
    (gs : σ → GoString → GoString × σ) (gi : σ → GoString → (Int × Option GoError) × σ)
    (st : σ) (fields : List (StructField × Value)) (i : Nat) (f : StructField) (v : Value)
    (hi : fields[i]? = some (f, v)) (hset : CanSet f = false) :
    (∃ fields' : List (StructField × Value),
      (ParseFromLocation w (some (.pointer (.struct fields))) location st).config =
        some (.pointer (.struct fields')) ∧
      fields'[i]? = some (f, v)) ∧
    (∀ s : σ, (bindField w location f v s).queries = [] ∧
      (bindField w location f v s).source = s ∧
      (bindField w location f v s).panic = none) ∧
    (ParseFromLocation w (some (.pointer (.struct fields))) location st).queries =
      (ParseFromLocation w (some (.pointer (.struct (fields.eraseIdx i)))) location st).queries ∧
    (ParseFromLocation w (some (.pointer (.struct fields))) location st).source =
      (ParseFromLocation w (some (.pointer (.struct (fields.eraseIdx i)))) location st).source ∧
    (ParseFromLocation w (some (.pointer (.struct fields))) location st).outcome =
      (ParseFromLocation w (some (.pointer (.struct (fields.eraseIdx i)))) location st).outcome ∧
    (ParseFromLocation w (some (.pointer (.struct fields)))
      (ConfigLocation.returning gs gi) st).outcome = .returned none := by
  obtain ⟨a1, _, a3, a4, a5⟩ := bindFields_eraseIdx w location fields st i f v hi (Or.inl hset)
  refine ⟨⟨(bindFields w location fields st).fields, ?_, a1⟩, ?_, ?_, ?_, ?_, ?_⟩
  · rw [ParseFromLocation_struct]
  · intro s
    obtain ⟨_, b2, b3, b4⟩ := bindField_untouched w location f v s (Or.inl hset)
    exact ⟨b4, b3, b2⟩
  · rw [ParseFromLocation_struct, ParseFromLocation_struct]
    exact a3
  · rw [ParseFromLocation_struct, ParseFromLocation_struct]
    exact a4
  · rw [ParseFromLocation_struct, ParseFromLocation_struct, a5]
  · rw [ParseFromLocation_struct_returning]

set_option maxRecDepth 100000 in
theorem unsettable_field_skipped_witness :
    exampleFields[3]? = some (secretField, .string (GoString.ofString "keep")) ∧
    CanSet secretField = false ∧
    (∃ fields' : List (StructField × Value),
      (ParseFromLocation .w64 (some (.pointer (.struct exampleFields)))
        (EnvConfig id .w64 exampleEnv) ()).config = some (.pointer (.struct fields')) ∧
      fields'[3]? = some (secretField, .string (GoString.ofString "keep"))) :=
  ⟨rfl, rfl,
    (unsettable_field_skipped .w64 (EnvConfig id .w64 exampleEnv)
      (fun (_ : Unit) _ => ([], ())) (fun _ _ => ((0, none), ())) () exampleFields 3 secretField
      (.string (GoString.ofString "keep")) rfl rfl).1⟩

/-! ## The environment source -/

/-- C9: `EnvConfig.GetString` always returns (it never panics and has no error
result), and its result is the value of the environment variable named by the
upper-cased key, or the empty string when that variable is not set; for a key
of ASCII bytes the upper-cased key is the bytewise upper-casing.  So two keys
with the same upper-casing get the same result from `GetString` and from
`GetInt`, and this holds for any two keys of ASCII bytes that differ only in
letter case. -/
theorem EnvConfig_GetString_upper (mapUpper : GoString → GoString) (w : IntSize) (env : Env)
    (key : GoString) :
    (EnvConfig mapUpper w env).GetString () key =
      (.ok (EnvConfig.GetString mapUpper env key), ()) ∧
    EnvConfig.GetString mapUpper env key =
      (match env (ToUpper mapUpper key) with
       | some value => value
       | none => []) ∧
    (isASCII key = true → ToUpper mapUpper key = key.map upperByte) ∧
    (∀ key2 : GoString, ToUpper mapUpper key = ToUpper mapUpper key2 →
      EnvConfig.GetString mapUpper env key = EnvConfig.GetString mapUpper env key2 ∧
      EnvConfig.GetInt mapUpper w env key = EnvConfig.GetInt mapUpper w env key2) ∧
    (∀ key2 : GoString, isASCII key = true → differOnlyInCase key key2 = true →
      EnvConfig.GetString mapUpper env key = EnvConfig.GetString mapUpper env key2 ∧
      EnvConfig.GetInt mapUpper w env key = EnvConfig.GetInt mapUpper w env key2) := by
  refine ⟨rfl, rfl, ToUpper_ascii mapUpper key, ?_, ?_⟩
  · intro key2 h
    simp only [EnvConfig.GetString, EnvConfig.GetInt, EnvConfig.value, h]
    exact ⟨trivial, trivial⟩
  · intro key2 hs h
    have hu := ToUpper_differOnlyInCase mapUpper key key2 hs h
    simp only [EnvConfig.GetString, EnvConfig.GetInt, EnvConfig.value, hu]
    exact ⟨trivial, trivial⟩

set_option maxRecDepth 100000 in
theorem EnvConfig_GetString_upper_witness :
    isASCII (GoString.ofString "Port") = true ∧
    differOnlyInCase (GoString.ofString "Port") (GoString.ofString "port") = true ∧
    differOnlyInCase (GoString.ofString "Port") (GoString.ofString "PORT") = true ∧
    EnvConfig.GetString id exampleEnv (GoString.ofString "Port") = GoString.ofString "9090" ∧
    EnvConfig.GetString id exampleEnv (GoString.ofString "Port") =
      EnvConfig.GetString id exampleEnv (GoString.ofString "port") ∧
    EnvConfig.GetInt id .w64 exampleEnv (GoString.ofString "Port") =
      EnvConfig.GetInt id .w64 exampleEnv (GoString.ofString "PORT") :=
  ⟨by decide, by decide, by decide,
    (EnvConfig_GetString_upper id .w64 exampleEnv (GoString.ofString "Port")).2.1,
    ((EnvConfig_GetString_upper id .w64 exampleEnv (GoString.ofString "Port")).2.2.2.2
      (GoString.ofString "port") (by decide) (by decide)).1,
    ((EnvConfig_GetString_upper id .w64 exampleEnv (GoString.ofString "Port")).2.2.2.2
      (GoString.ofString "PORT") (by decide) (by decide)).2⟩

/-- C10: `EnvConfig.GetInt(key)` returns an error exactly when the raw string
`EnvConfig.GetString(key)` is empty (the variable is absent or empty) or is not
a valid base-10 literal of an `int` (an optional sign and decimal digits whose
value fits `int`); when it returns no error, the integer returned is the
base-10 value of that raw string.  The call always returns. -/
theorem EnvConfig_GetInt_error_iff (mapUpper : GoString → GoString) (w : IntSize) (env : Env)
    (key : GoString) :
    ((EnvConfig.GetInt mapUpper w env key).2 ≠ none ↔
      (EnvConfig.GetString mapUpper env key = [] ∨
        ¬ ValidIntLiteral w (EnvConfig.GetString mapUpper env key))) ∧
    ((EnvConfig.GetInt mapUpper w env key).2 = none →
      (EnvConfig.GetInt mapUpper w env key).1 =
        literalValue (EnvConfig.GetString mapUpper env key)) ∧
    (EnvConfig mapUpper w env).GetInt () key =
      (.ok ((EnvConfig.GetInt mapUpper w env key).1,
        (EnvConfig.GetInt mapUpper w env key).2.map GoError.NumError), ()) := by
  have hspec := Atoi_spec w (EnvConfig.value mapUpper env key)
  refine ⟨?_, ?_, rfl⟩
  · simp only [EnvConfig.GetInt, EnvConfig.GetString]
    constructor
    · intro h
      right
      intro hv
      exact h (hspec.1.2 hv)
    · intro h hnone
      have hv := hspec.1.1 hnone
      rcases h with h | h
      · rw [h] at hv
        exact hv.1
      · exact h hv
  · intro h
    simp only [EnvConfig.GetInt, EnvConfig.GetString] at h ⊢
    exact hspec.2 (hspec.1.1 h)

set_option maxRecDepth 100000 in
theorem EnvConfig_GetInt_error_iff_witness :
    (EnvConfig.GetInt id .w64 exampleEnv (GoString.ofString "Port")).2 = none ∧
    (EnvConfig.GetInt id .w64 exampleEnv (GoString.ofString "Port")).1 = 9090 :=
  ⟨by decide,
    ((EnvConfig_GetInt_error_iff id .w64 exampleEnv (GoString.ofString "Port")).2.1
      (by decide)).trans (by decide)⟩

/-! ## `Parse` on the example schema -/

theorem ToUpper_Host (mapUpper : GoString → GoString) :
    ToUpper mapUpper hostField.Name = GoString.ofString "HOST" := by
  rw [ToUpper_ascii mapUpper _ (by decide)]
  decide

theorem ToUpper_Port (mapUpper : GoString → GoString) :
    ToUpper mapUpper portField.Name = GoString.ofString "PORT" := by
  rw [ToUpper_ascii mapUpper _ (by decide)]
  decide

set_option maxRecDepth 100000 in
theorem Atoi_examples (w : IntSize) :
    Atoi w [] = (0, some (syntaxError "Atoi" [])) ∧
    Atoi w (GoString.ofString "8080") = (8080, none) ∧
    Atoi w (GoString.ofString "9090") = (9090, none) ∧
    Atoi w (GoString.ofString "notanumber") =
      (0, some (syntaxError "Atoi" (GoString.ofString "notanumber"))) := by
  cases w <;> exact ⟨by decide, by decide, by decide, by decide⟩

theorem Parse_hostPort (mapUpper : GoString → GoString) (w : IntSize) (env : Env)
    (host : GoString) (port : Int) :
    Parse mapUpper w env (some (.pointer (hostPort host port))) =
      { outcome := .returned none,
        config := some (.pointer (hostPort
          (if Getenv env (GoString.ofString "HOST") = [] then GoString.ofString "localhost"
           else Getenv env (GoString.ofString "HOST"))
          (if (Atoi w (Getenv env (GoString.ofString "PORT"))).2 ≠ none then 8080
           else (Atoi w (Getenv env (GoString.ofString "PORT"))).1))),
        source := (),
        queries := [.GetString hostField.Name, .GetInt portField.Name],
        logs := [.settingString hostField.Name
            (if Getenv env (GoString.ofString "HOST") = [] then GoString.ofString "localhost"
             else Getenv env (GoString.ofString "HOST")),
          .settingInt portField.Name
            (if (Atoi w (Getenv env (GoString.ofString "PORT"))).2 ≠ none then 8080
             else (Atoi w (Getenv env (GoString.ofString "PORT"))).1)] } := by
  have h8080 := (Atoi_examples w).2.1
  have hH := ToUpper_Host mapUpper
  have hP := ToUpper_Port mapUpper
  have hc1 : CanSet hostField = true := rfl
  have hc2 : CanSet portField = true := rfl
  have hd1 : hostField.Tag.Get (GoString.ofString "default") = GoString.ofString "localhost" := by
    decide
  have hd2 : portField.Tag.Get (GoString.ofString "default") = GoString.ofString "8080" := by
    decide
  unfold Parse EnvConfig hostPort
  rw [ParseFromLocation_struct_returning]
  simp only [bindFields, bindField, ConfigLocation.returning, hc1, hc2, Value.Kind, SetString,
    SetInt, EnvConfig.GetString, EnvConfig.GetInt, EnvConfig.value, hH, hP, hd1, hd2, h8080,
    Bool.not_true, Bool.false_eq_true, if_false, List.nil_append, List.cons_append,
    List.singleton_append, ne_eq, Option.map_eq_none']

/-- C11: end to end through `Parse`, for the schema
``{Host string `default:"localhost"`; Port int `default:"8080"`}`` (whatever
the two fields hold on entry) and every environment in which `HOST` is not set:
`Parse` returns `nil`, asks the source for `Host` and `Port`, which are looked
up as the variables `HOST` and `PORT`, and leaves `Host = "localhost"` together
with `Port = 8080` when `PORT` is not set, `Port = 9090` when `PORT=9090`, and
`Port = 8080` when `PORT=notanumber`. -/
theorem parse_host_port_scenarios (mapUpper : GoString → GoString) (w : IntSize) (env : Env)
    (host : GoString) (port : Int) (hhost : env (GoString.ofString "HOST") = none) :
    EnvConfig.GetString mapUpper env (GoString.ofString "Host") =
      Getenv env (GoString.ofString "HOST") ∧
    EnvConfig.GetInt mapUpper w env (GoString.ofString "Port") =
      Atoi w (Getenv env (GoString.ofString "PORT")) ∧
    (Parse mapUpper w env (some (.pointer (hostPort host port)))).outcome = .returned none ∧
    (Parse mapUpper w env (some (.pointer (hostPort host port)))).queries =
      [.GetString (GoString.ofString "Host"), .GetInt (GoString.ofString "Port")] ∧
    (env (GoString.ofString "PORT") = none →
      (Parse mapUpper w env (some (.pointer (hostPort host port)))).config =
        some (.pointer (hostPort (GoString.ofString "localhost") 8080))) ∧
    (env (GoString.ofString "PORT") = some (GoString.ofString "9090") →
      (Parse mapUpper w env (some (.pointer (hostPort host port)))).config =
        some (.pointer (hostPort (GoString.ofString "localhost") 9090))) ∧
    (env (GoString.ofString "PORT") = some (GoString.ofString "notanumber") →
      (Parse mapUpper w env (some (.pointer (hostPort host port)))).config =
        some (.pointer (hostPort (GoString.ofString "localhost") 8080))) := by
  have hH := ToUpper_Host mapUpper
  have hP := ToUpper_Port mapUpper
  obtain ⟨a0, _, a9090, anan⟩ := Atoi_examples w
  have hgh : Getenv env (GoString.ofString "HOST") = [] := by
    unfold Getenv; rw [hhost]
  rw [Parse_hostPort]
  refine ⟨?_, ?_, rfl, rfl, ?_, ?_, ?_⟩
  · unfold EnvConfig.GetString EnvConfig.value
    rw [← hH]; rfl
  · unfold EnvConfig.GetInt EnvConfig.value
    rw [← hP]; rfl
  · intro hp
    have hgp : Getenv env (GoString.ofString "PORT") = [] := by
      unfold Getenv; rw [hp]
    simp only [hgh, hgp, a0, if_true, ne_eq, not_false_eq_true, reduceCtorEq]
  · intro hp
    have hgp : Getenv env (GoString.ofString "PORT") = GoString.ofString "9090" := by
      unfold Getenv; rw [hp]
    simp only [hgh, hgp, a9090, if_true, ne_eq, not_true_eq_false, if_false]
  · intro hp
    have hgp : Getenv env (GoString.ofString "PORT") = GoString.ofString "notanumber" := by
      unfold Getenv; rw [hp]
    simp only [hgh, hgp, anan, if_true, ne_eq, not_false_eq_true, reduceCtorEq]

set_option maxRecDepth 100000 in
theorem parse_host_port_scenarios_witness :
    exampleEnv (GoString.ofString "HOST") = none ∧
    exampleEnv (GoString.ofString "PORT") = some (GoString.ofString "9090") ∧
    (Parse id .w64 exampleEnv (some (.pointer (hostPort [] 0)))).config =
      some (.pointer (hostPort (GoString.ofString "localhost") 9090)) :=
  ⟨by decide, by decide,
    (parse_host_port_scenarios id .w64 exampleEnv [] 0 (by decide)).2.2.2.2.2.1 (by decide)⟩

/-! ## Panics and the recovery boundary -/

/-- With a source that returns normally, `ParseFromLocation` returns for every
destination; the error is `nil` exactly for a pointer to a struct. -/
theorem ParseFromLocation_returns {σ : Type} (w : IntSize)
    (gs : σ → GoString → GoString × σ) (gi : σ → GoString → (Int × Option GoError) × σ)
    (st : σ) (config : Option Value) :
    ∃ err : Option GoError,
      (ParseFromLocation w config (ConfigLocation.returning gs gi) st).outcome = .returned err := by
  match config with
  | none => exact ⟨_, rfl⟩
  | some (.string s) => exact ⟨_, rfl⟩
  | some (.int n) => exact ⟨_, rfl⟩
  | some (.struct fields) => exact ⟨_, rfl⟩
  | some (.nilPointer elem) => exact ⟨_, rfl⟩
  | some (.other k repr) => exact ⟨_, rfl⟩
  | some (.pointer (.string s)) => exact ⟨_, rfl⟩
  | some (.pointer (.int n)) => exact ⟨_, rfl⟩
  | some (.pointer (.nilPointer elem)) => exact ⟨_, rfl⟩
  | some (.pointer (.pointer target)) => exact ⟨_, rfl⟩
  | some (.pointer (.other k repr)) => exact ⟨_, rfl⟩
  | some (.pointer (.struct fields)) =>
    exact ⟨none, by rw [ParseFromLocation_struct_returning]⟩

/-- C12: for every destination of any shape (the nil interface, a scalar, a
map, a slice, a struct by value, a nil pointer, a pointer to a non-struct, a
pointer to a struct with fields of any kinds) and every source whose methods
return normally, `ParseFromLocation` returns, with `nil` or with an error; it
does not panic. -/
theorem no_panic_on_any_destination {σ : Type} (w : IntSize)
    (gs : σ → GoString → GoString × σ) (gi : σ → GoString → (Int × Option GoError) × σ)
    (st : σ) (config : Option Value) :
    (∃ err : Option GoError,
      (ParseFromLocation w config (ConfigLocation.returning gs gi) st).outcome = .returned err) ∧
    ∀ p : PanicValue,
      (ParseFromLocation w config (ConfigLocation.returning gs gi) st).outcome ≠ .panicked p := by
  obtain ⟨err, h⟩ := ParseFromLocation_returns w gs gi st config
  refine ⟨⟨err, h⟩, ?_⟩
  intro p hp
  rw [h] at hp
  exact Outcome.noConfusion hp

/-- C13: for a pointer whose target is not a struct (a scalar, a map, a slice,
another pointer) and for a nil pointer, whatever its element type,
`ParseFromLocation` returns exactly `ErrInvalidConfigVariable`; this is decided
by the kind check before the loop: the destination is unchanged, no source call
has been made, the source is in its state and nothing has been logged, for
every source. -/
theorem pointer_to_non_struct_sentinel {σ : Type} (w : IntSize) (location : ConfigLocation σ)
    (st : σ) :
    (∀ target : Value, target.Kind ≠ .Struct →
      ParseFromLocation w (some (.pointer target)) location st =
        { outcome := .returned (some ErrInvalidConfigVariable),
          config := some (.pointer target), source := st, queries := [], logs := [] }) ∧
    (∀ elem : Kind,
      ParseFromLocation w (some (.nilPointer elem)) location st =
        { outcome := .returned (some ErrInvalidConfigVariable),
          config := some (.nilPointer elem), source := st, queries := [], logs := [] }) :=
  ⟨fun target h => ParseFromLocation_pointer_not_struct w location st target h,
    fun elem => ParseFromLocation_nilPointer w location st elem⟩

theorem pointer_to_non_struct_sentinel_witness :
    (Value.pointer (.int 5)).Kind ≠ .Struct ∧
    (ParseFromLocation .w64 (some (.pointer (.pointer (.int 5)))) (EnvConfig id .w64 emptyEnv)
      ()).outcome = .returned (some ErrInvalidConfigVariable) ∧
    (ParseFromLocation .w64 (some (.nilPointer .Struct)) (EnvConfig id .w64 emptyEnv)
      ()).outcome = .returned (some ErrInvalidConfigVariable) :=
  ⟨by decide,
    congrArg Run.outcome ((pointer_to_non_struct_sentinel .w64 (EnvConfig id .w64 emptyEnv) ()).1
      (.pointer (.int 5)) (by decide)),
    congrArg Run.outcome ((pointer_to_non_struct_sentinel .w64 (EnvConfig id .w64 emptyEnv) ()).2
      .Struct)⟩

theorem bindField_panic_of_call {σ : Type} (w : IntSize) (location : ConfigLocation σ)
    (f : StructField) (v : Value) (st st1 : σ) (p : PanicValue) (hset : CanSet f = true)
    (hcall : (v.Kind = .String ∧ location.GetString st f.Name = (.error p, st1)) ∨
      (v.Kind = .Int ∧ location.GetInt st f.Name = (.error p, st1))) :
    (bindField w location f v st).panic = some p ∧ (bindField w location f v st).value = v := by
  unfold bindField
  rcases hcall with ⟨hk, hc⟩ | ⟨hk, hc⟩
  · simp only [hset, hk, hc, Bool.not_true, Bool.false_eq_true, if_false]
    exact ⟨trivial, trivial⟩
  · simp only [hset, hk, hc, Bool.not_true, Bool.false_eq_true, if_false]
    exact ⟨trivial, trivial⟩

/-- A panic in the iteration for the field at position `i`, when the loop
reaches it, is the panic of the loop. -/
theorem bindFields_panic_at {σ : Type} (w : IntSize) (location : ConfigLocation σ) :
    ∀ (fields : List (StructField × Value)) (st : σ) (i : Nat) (f : StructField) (v : Value)
      (p : PanicValue),
      fields[i]? = some (f, v) →
      (bindFields w location (fields.take i) st).panic = none →
      (bindField w location f v (bindFields w location (fields.take i) st).source).panic = some p →
      (bindFields w location fields st).panic = some p := by
  intro fields
  induction fields with
  | nil => intro st i f v p h; simp at h
  | cons x rest ih =>
    intro st i f v p h hreach hpanic
    obtain ⟨f0, v0⟩ := x
    cases i with
    | zero =>
      simp only [List.getElem?_cons_zero, Option.some.injEq, Prod.mk.injEq] at h
      obtain ⟨rfl, rfl⟩ := h
      simp only [List.take_zero, bindFields] at hpanic
      simp only [bindFields, hpanic]
    | succ j =>
      simp only [List.getElem?_cons_succ] at h
      simp only [List.take_succ_cons] at hreach hpanic
      cases hp : (bindField w location f0 v0 st).panic with
      | some q =>
        simp only [bindFields, hp] at hreach
        exact absurd hreach (by simp)
      | none =>
        rw [bindFields_cons w location f0 v0 (List.take j rest) st hp] at hreach hpanic
        rw [bindFields_cons w location f0 v0 rest st hp]
        exact ih _ j f v p h hreach hpanic

/-- C14: the recovery boundary of `ParseFromLocation`.  Whenever the body
panics with a value `p`: if `p` is a `runtime.Error`, the call panics with it
and returns no error; if `p` is any other `error`, the call returns `p` as its
error; if `p` is not an `error`, the call panics and does not return.  A panic
raised by the source in `GetString` or `GetInt`, for a settable field of kind
`String` or `Int` that the loop reaches, is such a panic of the body. -/
theorem recovery_boundary {σ : Type} (w : IntSize) (config : Option Value)
    (location : ConfigLocation σ) (st : σ) (p : PanicValue) :
    ((ParseFromLocation.body w config location st).outcome = .panicked p →
      (∀ d, p = .runtimeError d →
        (ParseFromLocation w config location st).outcome = .panicked (.runtimeError d)) ∧
      (∀ e, p = .error e →
        (ParseFromLocation w config location st).outcome = .returned (some e)) ∧
      (∀ r, p = .nonError r →
        (∃ q, (ParseFromLocation w config location st).outcome = .panicked q) ∧
        ∀ err, (ParseFromLocation w config location st).outcome ≠ .returned err)) ∧
    (∀ (fields : List (StructField × Value)) (i : Nat) (f : StructField) (v : Value) (st1 : σ),
      config = some (.pointer (.struct fields)) →
      fields[i]? = some (f, v) → CanSet f = true →
      (ParseFromLocation w (some (.pointer (.struct (fields.take i)))) location st).outcome
        = .returned none →
      ((v.Kind = .String ∧
          location.GetString (sourceBefore w location fields st i) f.Name = (.error p, st1)) ∨
        (v.Kind = .Int ∧
          location.GetInt (sourceBefore w location fields st i) f.Name = (.error p, st1))) →
      (ParseFromLocation.body w config location st).outcome = .panicked p) := by
  constructor
  · intro h
    have hr : (ParseFromLocation w config location st).outcome = recovered (.panicked p) := by
      simp only [ParseFromLocation, h]
    rw [hr]
    refine ⟨?_, ?_, ?_⟩
    · intro d hd; rw [hd]; rfl
    · intro e he; rw [he]; rfl
    · intro r hr2; rw [hr2]
      exact ⟨⟨_, rfl⟩, fun err herr => Outcome.noConfusion herr⟩
  · intro fields i f v st1 hcfg hi hset hreach hcall
    rw [ParseFromLocation_struct] at hreach
    have hp := recovered_eq_nil _ hreach
    simp only [sourceBefore, ParseFromLocation_struct] at hcall
    have hstep := (bindField_panic_of_call w location f v _ st1 p hset hcall).1
    have hloop := bindFields_panic_at w location fields st i f v p hi hp hstep
    rw [hcfg]
    simp only [ParseFromLocation.body, elems, Value.Kind, ne_eq, not_true_eq_false, if_false,
      hloop]

set_option maxRecDepth 100000 in
theorem recovery_boundary_witness :
    (ParseFromLocation.body .w64 (some (.pointer (.struct exampleFields)))
      (faultySource (.error (.other 1))) ()).outcome = .panicked (.error (.other 1)) ∧
    (ParseFromLocation .w64 (some (.pointer (.struct exampleFields)))
      (faultySource (.error (.other 1))) ()).outcome = .returned (some (.other 1)) :=
  ⟨rfl,
    ((recovery_boundary .w64 (some (.pointer (.struct exampleFields)))
      (faultySource (.error (.other 1))) () (.error (.other 1))).1 rfl).2.1 (.other 1) rfl⟩

/-! ## Stateless sources -/

theorem bindField_stateless_source {σ : Type} (w : IntSize)
    (gs : GoString → Except PanicValue GoString)
    (gi : GoString → Except PanicValue (Int × Option GoError))
    (f : StructField) (v : Value) (st : σ) :
    (bindField w (ConfigLocation.stateless gs gi) f v st).source = st := by
  unfold bindField
  split
  · rfl
  · split
    · simp only [ConfigLocation.stateless]
      split <;> (rename_i h; exact (Prod.mk.inj h).2.symm)
    · simp only [ConfigLocation.stateless]
      split <;> (rename_i h; exact (Prod.mk.inj h).2.symm)
    · rfl

theorem bindField_answering_panic {σ : Type} (w : IntSize) (gs : GoString → GoString)
    (gi : GoString → Int × Option GoError) (f : StructField) (v : Value) (st : σ) :
    (bindField w (ConfigLocation.answering gs gi) f v st).panic = none := by
  unfold bindField
  split
  · rfl
  · split <;> rfl

/-- The value a field gets from a stateless source that returns normally
depends on the field, on the value it held, and on the answers of the source
for the name of the field; not on the state or on other answers. -/
theorem bindField_answering_value {σ τ : Type} (w : IntSize) (gs gs' : GoString → GoString)
    (gi gi' : GoString → Int × Option GoError) (f : StructField) (v : Value) (st : σ) (st' : τ)
    (hs : gs f.Name = gs' f.Name) (hi : gi f.Name = gi' f.Name) :
    (bindField w (ConfigLocation.answering gs gi) f v st).value =
      (bindField w (ConfigLocation.answering gs' gi') f v st').value := by
  unfold bindField
  split
  · rfl
  · split
    · simp only [ConfigLocation.answering, ConfigLocation.stateless, hs]
    · simp only [ConfigLocation.answering, ConfigLocation.stateless, hi]
    · rfl

/-- With a stateless source that returns normally the loop binds every field on
its own. -/
theorem bindFields_answering {σ : Type} (w : IntSize) (gs : GoString → GoString)
    (gi : GoString → Int × Option GoError) :
    ∀ (fields : List (StructField × Value)) (st : σ),
      (bindFields w (ConfigLocation.answering gs gi) fields st).panic = none ∧
      (bindFields w (ConfigLocation.answering gs gi) fields st).source = st ∧
      (bindFields w (ConfigLocation.answering gs gi) fields st).fields =
        fields.map (fun fv =>
          (fv.1, (bindField w (ConfigLocation.answering gs gi) fv.1 fv.2 st).value)) := by
  intro fields
  induction fields with
  | nil => intro st; exact ⟨rfl, rfl, rfl⟩
  | cons x rest ih =>
    intro st
    obtain ⟨f, v⟩ := x
    have hp := bindField_answering_panic w gs gi f v st
    have hsrc : (bindField w (ConfigLocation.answering gs gi) f v st).source = st :=
      bindField_stateless_source w _ _ f v st
    rw [bindFields_cons w _ f v rest st hp, hsrc]
    obtain ⟨h1, h2, h3⟩ := ih st
    exact ⟨h1, h2, by simp only [h3, List.map_cons]⟩
theorem ParseFromLocation_struct_answering {σ : Type} (w : IntSize) (gs : GoString → GoString)
    (gi : GoString → Int × Option GoError) (fields : List (StructField × Value)) (st : σ) :
    (ParseFromLocation w (some (.pointer (.struct fields)))
        (ConfigLocation.answering gs gi) st).outcome = .returned none ∧
    (ParseFromLocation w (some (.pointer (.struct fields)))
        (ConfigLocation.answering gs gi) st).config =
      some (.pointer (.struct (fields.map (fun fv =>
        (fv.1, (bindField w (ConfigLocation.answering gs gi) fv.1 fv.2 st).value))))) ∧
    (ParseFromLocation w (some (.pointer (.struct fields)))
        (ConfigLocation.answering gs gi) st).source = st := by
  obtain ⟨h1, h2, h3⟩ := bindFields_answering w gs gi fields st
  rw [ParseFromLocation_struct, h1, h2, h3]
  exact ⟨rfl, rfl, rfl⟩

set_option maxRecDepth 100000 in
/-- C15 fails for a stateless source that panics: `panicsOnName` answers `"x"`
for `Host` and panics with an ordinary error for `Name`.  With the fields in the
order `Host`, `Name` the field `Host` is written before the panic and ends as
`"x"`; with the order `Name`, `Host` the panic ends the loop first and `Host`
keeps its entry value `"old"`.  Both calls return the error of the panic. -/
theorem field_order_matters_when_source_panics :
    (ParseFromLocation .w64
      (some (.pointer (.struct [(hostField, .string (GoString.ofString "old")),
        (nameField, .string [])]))) panicsOnName ()).outcome = .returned (some (.other 1)) ∧
    (ParseFromLocation .w64
      (some (.pointer (.struct [(hostField, .string (GoString.ofString "old")),
        (nameField, .string [])]))) panicsOnName ()).config =
      some (.pointer (.struct [(hostField, .string (GoString.ofString "x")),
        (nameField, .string [])])) ∧
    (ParseFromLocation .w64
      (some (.pointer (.struct [(nameField, .string []),
        (hostField, .string (GoString.ofString "old"))]))) panicsOnName ()).outcome =
      .returned (some (.other 1)) ∧
    (ParseFromLocation .w64
      (some (.pointer (.struct [(nameField, .string []),
        (hostField, .string (GoString.ofString "old"))]))) panicsOnName ()).config =
      some (.pointer (.struct [(nameField, .string []),
        (hostField, .string (GoString.ofString "old"))])) ∧
    Value.string (GoString.ofString "x") ≠ Value.string (GoString.ofString "old") :=
  ⟨rfl, rfl, rfl, rfl, fun h => absurd (Value.string.inj h) (by decide)⟩

/-- C15 as amended: field independence for stateless sources whose methods
return normally.  With such sources the final value of a field is determined by
the field itself (name, settability, tag), the value it held on entry (and so
its kind) and the answers of the source for its name: the same field with the
same entry value, at any position `i` of any struct and at any position `j` of
any other struct, bound from sources that agree on the name of the field, ends
with the same value.  So permuting the fields, or adding and removing other
fields, does not change the final value of a field, and the fields of a
permuted struct end as the same permutation of the final fields. -/
theorem field_independence {σ τ : Type} (w : IntSize) (gs gs' : GoString → GoString)
    (gi gi' : GoString → Int × Option GoError) (st : σ) (st' : τ)
    (fields fields' : List (StructField × Value)) (i j : Nat) (f : StructField) (v : Value)
    (hi : fields[i]? = some (f, v)) (hj : fields'[j]? = some (f, v))
    (hs : gs f.Name = gs' f.Name) (hn : gi f.Name = gi' f.Name) :
    (∃ (x : Value) (out out' : List (StructField × Value)),
      (ParseFromLocation w (some (.pointer (.struct fields)))
        (ConfigLocation.answering gs gi) st).config = some (.pointer (.struct out)) ∧
      (ParseFromLocation w (some (.pointer (.struct fields')))
        (ConfigLocation.answering gs' gi') st').config = some (.pointer (.struct out')) ∧
      out[i]? = some (f, x) ∧ out'[j]? = some (f, x)) ∧
    (∀ permuted : List (StructField × Value), fields.Perm permuted →
      ∃ out out' : List (StructField × Value),
        (ParseFromLocation w (some (.pointer (.struct fields)))
          (ConfigLocation.answering gs gi) st).config = some (.pointer (.struct out)) ∧
        (ParseFromLocation w (some (.pointer (.struct permuted)))
          (ConfigLocation.answering gs gi) st).config = some (.pointer (.struct out')) ∧
        out.Perm out') := by
  constructor
  · refine ⟨(bindField w (ConfigLocation.answering gs gi) f v st).value, _, _,
      (ParseFromLocation_struct_answering w gs gi fields st).2.1,
      (ParseFromLocation_struct_answering w gs' gi' fields' st').2.1, ?_, ?_⟩
    · rw [List.getElem?_map, hi]; rfl
    · rw [List.getElem?_map, hj, bindField_answering_value w gs gs' gi gi' f v st st' hs hn]; rfl
  · intro permuted hperm
    exact ⟨_, _, (ParseFromLocation_struct_answering w gs gi fields st).2.1,
      (ParseFromLocation_struct_answering w gs gi permuted st).2.1, hperm.map _⟩

set_option maxRecDepth 100000 in
theorem field_independence_witness :
    exampleFields[1]? = some (portField, .int 0) ∧
    [(portField, Value.int 0), (hostField, Value.string [])][0]? = some (portField, .int 0) ∧
    ∃ (x : Value) (out out' : List (StructField × Value)),
      (ParseFromLocation .w64 (some (.pointer (.struct exampleFields)))
        (ConfigLocation.answering (fun _ => []) (fun _ => (7, none))) ()).config =
          some (.pointer (.struct out)) ∧
      (ParseFromLocation .w64
        (some (.pointer (.struct [(portField, Value.int 0), (hostField, Value.string [])])))
        (ConfigLocation.answering (fun _ => []) (fun _ => (7, none))) ()).config =
          some (.pointer (.struct out')) ∧
      out[1]? = some (portField, x) ∧ out'[0]? = some (portField, x) :=
  ⟨rfl, rfl,
    (field_independence .w64 (fun _ => []) (fun _ => []) (fun _ => (7, none))
      (fun _ => (7, none)) () () exampleFields
      [(portField, Value.int 0), (hostField, Value.string [])] 1 0 portField (.int 0)
      rfl rfl rfl rfl).1⟩

/-! ## `Parse`, entry values and repeated calls -/

/-- C16: `Parse` is pure delegation: for every destination and every
environment, `Parse(config)` is the call `ParseFromLocation(config,
&EnvConfig{})`; it ends the same way, with the same error, and leaves the
destination in the same final state. -/
theorem parse_is_delegation (mapUpper : GoString → GoString) (w : IntSize) (env : Env)
    (config : Option Value) :
    (Parse mapUpper w env config).outcome =
      (ParseFromLocation w config (EnvConfig mapUpper w env) ()).outcome ∧
    (Parse mapUpper w env config).config =
      (ParseFromLocation w config (EnvConfig mapUpper w env) ()).config ∧
    Parse mapUpper w env config = ParseFromLocation w config (EnvConfig mapUpper w env) () :=
  ⟨rfl, rfl, rfl⟩

theorem bindField_entry {σ : Type} (w : IntSize) (location : ConfigLocation σ)
    (f : StructField) (v v' : Value) (st : σ)
    (h : v = v' ∨ (CanSet f = true ∧
      ((v.Kind = .String ∧ v'.Kind = .String) ∨ (v.Kind = .Int ∧ v'.Kind = .Int)))) :
    (bindField w location f v st).panic = (bindField w location f v' st).panic ∧
    (bindField w location f v st).source = (bindField w location f v' st).source ∧
    (bindField w location f v st).queries = (bindField w location f v' st).queries ∧
    (bindField w location f v st).logs = (bindField w location f v' st).logs ∧
    ((bindField w location f v st).panic = none →
      (bindField w location f v st).value = (bindField w location f v' st).value) := by
  rcases h with h | ⟨hset, ⟨hk, hk'⟩ | ⟨hk, hk'⟩⟩
  · rw [h]
    exact ⟨rfl, rfl, rfl, rfl, fun _ => rfl⟩
  · unfold bindField
    simp only [hset, hk, hk', Bool.not_true, Bool.false_eq_true, if_false, SetString]
    cases hc : location.GetString st f.Name with
    | mk r st1 =>
      cases r with
      | error p => exact ⟨rfl, rfl, rfl, rfl, fun hp => absurd hp (by simp)⟩
      | ok a => exact ⟨rfl, rfl, rfl, rfl, fun _ => rfl⟩
  · unfold bindField
    simp only [hset, hk, hk', Bool.not_true, Bool.false_eq_true, if_false, SetInt]
    cases hc : location.GetInt st f.Name with
    | mk r st1 =>
      cases r with
      | error p => exact ⟨rfl, rfl, rfl, rfl, fun hp => absurd hp (by simp)⟩
      | ok a => exact ⟨rfl, rfl, rfl, rfl, fun _ => rfl⟩

/-- Two loops over field lists that differ only in entry values run in
lockstep: the same source calls, log lines, source state and panic; and when
there is no panic, the same final fields. -/
theorem bindFields_entry {σ : Type} (w : IntSize) (location : ConfigLocation σ) :
    ∀ (fields fields' : List (StructField × Value)) (st : σ),
      differOnlyInEntry fields fields' →
      (bindFields w location fields st).panic = (bindFields w location fields' st).panic ∧
      (bindFields w location fields st).source = (bindFields w location fields' st).source ∧
      (bindFields w location fields st).queries = (bindFields w location fields' st).queries ∧
      (bindFields w location fields st).logs = (bindFields w location fields' st).logs ∧
      ((bindFields w location fields st).panic = none →
        (bindFields w location fields st).fields = (bindFields w location fields' st).fields) := by
  intro fields
  induction fields with
  | nil =>
    intro fields' st h
    cases fields' with
    | nil => exact ⟨rfl, rfl, rfl, rfl, fun _ => rfl⟩
    | cons y rest' => exact absurd h (by simp [differOnlyInEntry])
  | cons x rest ih =>
    intro fields' st h
    cases fields' with
    | nil => exact absurd h (by simp [differOnlyInEntry])
    | cons y rest' =>
      obtain ⟨f, v⟩ := x
      obtain ⟨f', v'⟩ := y
      obtain ⟨hf, hv, hrest⟩ := h
      subst hf
      obtain ⟨e1, e2, e3, e4, e5⟩ := bindField_entry w location f v v' st hv
      cases hp : (bindField w location f v st).panic with
      | some p =>
        have hp' : (bindField w location f v' st).panic = some p := by rw [← e1, hp]
        simp only [bindFields, hp, hp', e2, e3, e4]
        exact ⟨trivial, trivial, trivial, trivial, fun hh => absurd hh (by simp)⟩
      | none =>
        have hp' : (bindField w location f v' st).panic = none := by rw [← e1, hp]
        rw [bindFields_cons w location f v rest st hp, bindFields_cons w location f v' rest' st hp']
        obtain ⟨i1, i2, i3, i4, i5⟩ := ih rest' (bindField w location f v st).source hrest
        rw [← e2, ← e3, ← e4, ← e5 hp]
        refine ⟨i1, i2, by rw [i3], by rw [i4], ?_⟩
        intro hnone
        simp only [i5 hnone]
set_option maxRecDepth 100000 in
/-- C17 fails for a source that panics: with a source whose `GetString` panics
with an ordinary error, `ParseFromLocation` returns that error before the field
is written, so two runs that differ only in the entry value of the settable
string field `Host` end with different values in it, each the entry value. -/
theorem entry_value_kept_when_source_panics :
    differOnlyInEntry [(hostField, .string (GoString.ofString "old"))]
      [(hostField, .string [])] ∧
    (ParseFromLocation .w64
      (some (.pointer (.struct [(hostField, .string (GoString.ofString "old"))])))
      (faultySource (.error (.other 1))) ()).outcome = .returned (some (.other 1)) ∧
    (ParseFromLocation .w64
      (some (.pointer (.struct [(hostField, .string (GoString.ofString "old"))])))
      (faultySource (.error (.other 1))) ()).config =
      some (.pointer (.struct [(hostField, .string (GoString.ofString "old"))])) ∧
    (ParseFromLocation .w64 (some (.pointer (.struct [(hostField, .string [])])))
      (faultySource (.error (.other 1))) ()).config =
      some (.pointer (.struct [(hostField, .string [])])) ∧
    Value.string (GoString.ofString "old") ≠ Value.string [] :=
  ⟨⟨rfl, Or.inr ⟨rfl, Or.inl ⟨rfl, rfl⟩⟩, trivial⟩, rfl, rfl, rfl,
    fun h => absurd (Value.string.inj h) (by decide)⟩

/-- C17 as amended: entry values are overwritten when the call returns `nil`,
as it does for every source whose methods return normally.  Two runs on a
pointer to a struct, with the same source in the same state, whose structs
differ only in the values that settable fields of kind `String` or `Int` hold
on entry: when the first run returns `nil`, so does the second, they make the
same source calls and leave the source in the same state, and they leave the
same final struct; in particular the final value of every settable `String` or
`Int` field is the same in both, whatever the field held on entry.  With a
source whose methods return normally both runs return `nil` and leave the same
final struct. -/
theorem entry_values_overwritten {σ : Type} (w : IntSize) (location : ConfigLocation σ) (st : σ)
    (fields fields' : List (StructField × Value))
    (hdiff : differOnlyInEntry fields fields')
    (hret : (ParseFromLocation w (some (.pointer (.struct fields))) location st).outcome =
      .returned none) :
    (ParseFromLocation w (some (.pointer (.struct fields'))) location st).outcome =
      .returned none ∧
    (ParseFromLocation w (some (.pointer (.struct fields))) location st).config =
      (ParseFromLocation w (some (.pointer (.struct fields'))) location st).config ∧
    (ParseFromLocation w (some (.pointer (.struct fields))) location st).queries =
      (ParseFromLocation w (some (.pointer (.struct fields'))) location st).queries ∧
    (ParseFromLocation w (some (.pointer (.struct fields))) location st).source =
      (ParseFromLocation w (some (.pointer (.struct fields'))) location st).source ∧
    (∀ (gs : σ → GoString → GoString × σ) (gi : σ → GoString → (Int × Option GoError) × σ),
      (ParseFromLocation w (some (.pointer (.struct fields)))
        (ConfigLocation.returning gs gi) st).outcome = .returned none ∧
      (ParseFromLocation w (some (.pointer (.struct fields')))
        (ConfigLocation.returning gs gi) st).outcome = .returned none ∧
      (ParseFromLocation w (some (.pointer (.struct fields)))
        (ConfigLocation.returning gs gi) st).config =
      (ParseFromLocation w (some (.pointer (.struct fields')))
        (ConfigLocation.returning gs gi) st).config) := by
  rw [ParseFromLocation_struct] at hret
  have hp := recovered_eq_nil _ hret
  obtain ⟨e1, e2, e3, _, e5⟩ := bindFields_entry w location fields fields' st hdiff
  refine ⟨?_, ?_, ?_, ?_, ?_⟩
  · rw [ParseFromLocation_struct, ← e1, hp]; rfl
  · rw [ParseFromLocation_struct, ParseFromLocation_struct, ← e5 hp]
  · rw [ParseFromLocation_struct, ParseFromLocation_struct, ← e3]
  · rw [ParseFromLocation_struct, ParseFromLocation_struct, ← e2]
  · intro gs gi
    obtain ⟨_, _, _, _, r5⟩ :=
      bindFields_entry w (ConfigLocation.returning gs gi) fields fields' st hdiff
    have hn := (bindFields_returning w gs gi fields st).1
    rw [ParseFromLocation_struct_returning, ParseFromLocation_struct_returning, ← r5 hn]
    exact ⟨rfl, rfl, rfl⟩

set_option maxRecDepth 100000 in
theorem entry_values_overwritten_witness :
    differOnlyInEntry
      [(hostField, .string (GoString.ofString "old")), (portField, .int 5)]
      [(hostField, .string []), (portField, .int 0)] ∧
    (ParseFromLocation .w64
      (some (.pointer (.struct [(hostField, .string (GoString.ofString "old")),
        (portField, .int 5)]))) (EnvConfig id .w64 emptyEnv) ()).outcome = .returned none ∧
    (ParseFromLocation .w64
      (some (.pointer (.struct [(hostField, .string (GoString.ofString "old")),
        (portField, .int 5)]))) (EnvConfig id .w64 emptyEnv) ()).config =
      some (.pointer (hostPort (GoString.ofString "localhost") 8080)) :=
  ⟨⟨rfl, Or.inr ⟨rfl, Or.inl ⟨rfl, rfl⟩⟩, rfl, Or.inr ⟨rfl, Or.inr ⟨rfl, rfl⟩⟩, trivial⟩, rfl,
    ((entry_values_overwritten .w64 (EnvConfig id .w64 emptyEnv) ()
      [(hostField, .string (GoString.ofString "old")), (portField, .int 5)]
      [(hostField, .string []), (portField, .int 0)]
      ⟨rfl, Or.inr ⟨rfl, Or.inl ⟨rfl, rfl⟩⟩, rfl, Or.inr ⟨rfl, Or.inr ⟨rfl, rfl⟩⟩, trivial⟩
      rfl).2.1).trans rfl⟩

theorem bindField_stateless_string_ok {σ : Type} (w : IntSize)
    (gs : GoString → Except PanicValue GoString)
    (gi : GoString → Except PanicValue (Int × Option GoError))
    (f : StructField) (v : Value) (st : σ) (a : GoString)
    (hset : CanSet f = true) (hk : v.Kind = .String) (hg : gs f.Name = .ok a) :
    bindField w (ConfigLocation.stateless gs gi) f v st =
      { value := .string (if a = [] then f.Tag.Get (GoString.ofString "default") else a),
        panic := none, source := st, queries := [.GetString f.Name],
        logs := [.settingString f.Name
          (if a = [] then f.Tag.Get (GoString.ofString "default") else a)] } := by
  unfold bindField
  simp only [hset, hk, hg, ConfigLocation.stateless, Bool.not_true, Bool.false_eq_true, if_false,
    SetString]

theorem bindField_stateless_string_panic {σ : Type} (w : IntSize)
    (gs : GoString → Except PanicValue GoString)
    (gi : GoString → Except PanicValue (Int × Option GoError))
    (f : StructField) (v : Value) (st : σ) (p : PanicValue)
    (hset : CanSet f = true) (hk : v.Kind = .String) (hg : gs f.Name = .error p) :
    bindField w (ConfigLocation.stateless gs gi) f v st =
      { value := v, panic := some p, source := st, queries := [.GetString f.Name],
        logs := [] } := by
  unfold bindField
  simp only [hset, hk, hg, ConfigLocation.stateless, Bool.not_true, Bool.false_eq_true, if_false]

theorem bindField_stateless_int_ok {σ : Type} (w : IntSize)
    (gs : GoString → Except PanicValue GoString)
    (gi : GoString → Except PanicValue (Int × Option GoError))
    (f : StructField) (v : Value) (st : σ) (a : Int × Option GoError)
    (hset : CanSet f = true) (hk : v.Kind = .Int) (hg : gi f.Name = .ok a) :
    bindField w (ConfigLocation.stateless gs gi) f v st =
      { value := .int (if a.2 ≠ none then (Atoi w (f.Tag.Get (GoString.ofString "default"))).1
          else a.1),
        panic := none, source := st, queries := [.GetInt f.Name],
        logs := [.settingInt f.Name
          (if a.2 ≠ none then (Atoi w (f.Tag.Get (GoString.ofString "default"))).1
           else a.1)] } := by
  obtain ⟨n, err⟩ := a
  unfold bindField
  simp only [hset, hk, hg, ConfigLocation.stateless, Bool.not_true, Bool.false_eq_true, if_false,
    SetInt]

theorem bindField_stateless_int_panic {σ : Type} (w : IntSize)
    (gs : GoString → Except PanicValue GoString)
    (gi : GoString → Except PanicValue (Int × Option GoError))
    (f : StructField) (v : Value) (st : σ) (p : PanicValue)
    (hset : CanSet f = true) (hk : v.Kind = .Int) (hg : gi f.Name = .error p) :
    bindField w (ConfigLocation.stateless gs gi) f v st =
      { value := v, panic := some p, source := st, queries := [.GetInt f.Name],
        logs := [] } := by
  unfold bindField
  simp only [hset, hk, hg, ConfigLocation.stateless, Bool.not_true, Bool.false_eq_true, if_false]

/-- With a stateless source, binding a field again, from the value the first
binding left in it, ends the same way and leaves the same value. -/
theorem bindField_again {σ : Type} (w : IntSize)
    (gs : GoString → Except PanicValue GoString)
    (gi : GoString → Except PanicValue (Int × Option GoError))
    (f : StructField) (v : Value) (st st' : σ) :
    (bindField w (ConfigLocation.stateless gs gi) f
        (bindField w (ConfigLocation.stateless gs gi) f v st).value st').value =
      (bindField w (ConfigLocation.stateless gs gi) f v st).value ∧
    (bindField w (ConfigLocation.stateless gs gi) f
        (bindField w (ConfigLocation.stateless gs gi) f v st).value st').panic =
      (bindField w (ConfigLocation.stateless gs gi) f v st).panic ∧
    (bindField w (ConfigLocation.stateless gs gi) f
        (bindField w (ConfigLocation.stateless gs gi) f v st).value st').queries =
      (bindField w (ConfigLocation.stateless gs gi) f v st).queries ∧
    (bindField w (ConfigLocation.stateless gs gi) f
        (bindField w (ConfigLocation.stateless gs gi) f v st).value st').logs =
      (bindField w (ConfigLocation.stateless gs gi) f v st).logs := by
  cases hset : CanSet f with
  | false =>
    unfold bindField
    simp only [hset, Bool.not_false, if_true]
    exact ⟨trivial, trivial, trivial, trivial⟩
  | true =>
    by_cases hs : v.Kind = .String
    · cases hg : gs f.Name with
      | error p =>
        rw [bindField_stateless_string_panic w gs gi f v st p hset hs hg,
          bindField_stateless_string_panic w gs gi f v st' p hset hs hg]
        exact ⟨rfl, rfl, rfl, rfl⟩
      | ok a =>
        rw [bindField_stateless_string_ok w gs gi f v st a hset hs hg,
          bindField_stateless_string_ok w gs gi f
            (.string (if a = [] then f.Tag.Get (GoString.ofString "default") else a)) st' a hset
            rfl hg]
        exact ⟨rfl, rfl, rfl, rfl⟩
    · by_cases hi : v.Kind = .Int
      · cases hg : gi f.Name with
        | error p =>
          rw [bindField_stateless_int_panic w gs gi f v st p hset hi hg,
            bindField_stateless_int_panic w gs gi f v st' p hset hi hg]
          exact ⟨rfl, rfl, rfl, rfl⟩
        | ok a =>
          rw [bindField_stateless_int_ok w gs gi f v st a hset hi hg,
            bindField_stateless_int_ok w gs gi f
              (.int (if a.2 ≠ none then (Atoi w (f.Tag.Get (GoString.ofString "default"))).1
                else a.1)) st' a hset rfl hg]
          exact ⟨rfl, rfl, rfl, rfl⟩
      · have h1 := bindField_untouched w (ConfigLocation.stateless gs gi) f v st
          (Or.inr ⟨hs, hi⟩)
        rw [h1.1]
        unfold bindField
        simp only [hset, Bool.not_true, Bool.false_eq_true, if_false]
        exact ⟨trivial, trivial, trivial, trivial⟩
/-- With a stateless source, running the loop again over the fields the first
loop left behind ends the same way and leaves the same fields. -/
theorem bindFields_again {σ : Type} (w : IntSize)
    (gs : GoString → Except PanicValue GoString)
    (gi : GoString → Except PanicValue (Int × Option GoError)) :
    ∀ (fields : List (StructField × Value)) (st st' : σ),
      (bindFields w (ConfigLocation.stateless gs gi)
          (bindFields w (ConfigLocation.stateless gs gi) fields st).fields st').fields =
        (bindFields w (ConfigLocation.stateless gs gi) fields st).fields ∧
      (bindFields w (ConfigLocation.stateless gs gi)
          (bindFields w (ConfigLocation.stateless gs gi) fields st).fields st').panic =
        (bindFields w (ConfigLocation.stateless gs gi) fields st).panic ∧
      (bindFields w (ConfigLocation.stateless gs gi)
          (bindFields w (ConfigLocation.stateless gs gi) fields st).fields st').queries =
        (bindFields w (ConfigLocation.stateless gs gi) fields st).queries ∧
      (bindFields w (ConfigLocation.stateless gs gi)
          (bindFields w (ConfigLocation.stateless gs gi) fields st).fields st').logs =
        (bindFields w (ConfigLocation.stateless gs gi) fields st).logs := by
  intro fields
  induction fields with
  | nil => intro st st'; exact ⟨rfl, rfl, rfl, rfl⟩
  | cons x rest ih =>
    intro st st'
    obtain ⟨f, v⟩ := x
    obtain ⟨a1, a2, a3, a4⟩ := bindField_again w gs gi f v st st'
    cases hp : (bindField w (ConfigLocation.stateless gs gi) f v st).panic with
    | some p =>
      have hfirst : bindFields w (ConfigLocation.stateless gs gi) ((f, v) :: rest) st =
          { fields := (f, (bindField w (ConfigLocation.stateless gs gi) f v st).value) :: rest,
            panic := some p,
            source := (bindField w (ConfigLocation.stateless gs gi) f v st).source,
            queries := (bindField w (ConfigLocation.stateless gs gi) f v st).queries,
            logs := (bindField w (ConfigLocation.stateless gs gi) f v st).logs } := by
        simp only [bindFields, hp]
      rw [hfirst]
      have hp2 := a2
      rw [hp] at hp2
      simp only [bindFields, hp2, a1, a3, a4]
      exact ⟨trivial, trivial, trivial, trivial⟩
    | none =>
      rw [bindFields_cons w _ f v rest st hp]
      have hp2 := a2
      rw [hp] at hp2
      rw [bindFields_cons w _ f _ _ st' hp2]
      obtain ⟨i1, i2, i3, i4⟩ :=
        ih (bindField w (ConfigLocation.stateless gs gi) f v st).source
          (bindField w (ConfigLocation.stateless gs gi) f
            (bindField w (ConfigLocation.stateless gs gi) f v st).value st').source
      simp only [a1, a3, a4, i1, i2, i3, i4]
      exact ⟨trivial, trivial, trivial, trivial⟩

/-- C18: idempotence.  For every destination and every stateless source
(whether its methods return or panic), a second call of `ParseFromLocation`
with the same source, on the destination as the first call left it, ends the
same way as the first call, with the same error or the same panic, and leaves
the destination exactly as the first call left it. -/
theorem second_call_changes_nothing {σ : Type} (w : IntSize)
    (gs : GoString → Except PanicValue GoString)
    (gi : GoString → Except PanicValue (Int × Option GoError))
    (st : σ) (config : Option Value) :
    (ParseFromLocation w
        (ParseFromLocation w config (ConfigLocation.stateless gs gi) st).config
        (ConfigLocation.stateless gs gi)
        (ParseFromLocation w config (ConfigLocation.stateless gs gi) st).source).outcome =
      (ParseFromLocation w config (ConfigLocation.stateless gs gi) st).outcome ∧
    (ParseFromLocation w
        (ParseFromLocation w config (ConfigLocation.stateless gs gi) st).config
        (ConfigLocation.stateless gs gi)
        (ParseFromLocation w config (ConfigLocation.stateless gs gi) st).source).config =
      (ParseFromLocation w config (ConfigLocation.stateless gs gi) st).config := by
  match config with
  | none => exact ⟨rfl, rfl⟩
  | some (.string s) => exact ⟨rfl, rfl⟩
  | some (.int n) => exact ⟨rfl, rfl⟩
  | some (.struct fields) => exact ⟨rfl, rfl⟩
  | some (.nilPointer elem) => exact ⟨rfl, rfl⟩
  | some (.other k repr) => exact ⟨rfl, rfl⟩
  | some (.pointer (.string s)) => exact ⟨rfl, rfl⟩
  | some (.pointer (.int n)) => exact ⟨rfl, rfl⟩
  | some (.pointer (.nilPointer elem)) => exact ⟨rfl, rfl⟩
  | some (.pointer (.pointer target)) => exact ⟨rfl, rfl⟩
  | some (.pointer (.other k repr)) => exact ⟨rfl, rfl⟩
  | some (.pointer (.struct fields)) =>
    rw [ParseFromLocation_struct w _ fields st]
    simp only []
    rw [ParseFromLocation_struct]
    obtain ⟨h1, h2, _, _⟩ := bindFields_again w gs gi fields st
      (bindFields w (ConfigLocation.stateless gs gi) fields st).source
    simp only [h1, h2]
    exact ⟨trivial, trivial⟩

/-- The environment source is a stateless source that answers every call, so
the statements about stateless sources apply to `Parse`. -/
theorem EnvConfig_answering (mapUpper : GoString → GoString) (w : IntSize) (env : Env) :
    EnvConfig mapUpper w env =
      ConfigLocation.answering (EnvConfig.GetString mapUpper env)
        (fun key => ((EnvConfig.GetInt mapUpper w env key).1,
          (EnvConfig.GetInt mapUpper w env key).2.map GoError.NumError)) :=
  rfl

end GoEnvConfig
